import Mathlib

set_option maxRecDepth 4000

/-!
Verification of the dependency reconciliation pipeline of the rookpkg
repository: the name normalizer and Arch-to-Rookery identity mapper of
scripts/check_deps.py, its dependency diff engine, the report emitted by its
main loop, and the report parser / spec patcher of scripts/fix_deps.py.
Python strings are modelled as Lean String (for the mapper tables) or as
List Char (for the line-oriented patcher and report machinery); Python dicts
are association lists looked up with last-binding-wins semantics, matching
the dict literals in the source (which contain duplicated keys).
-/

namespace Rookpkg

/-! ## Basic character and string-list utilities (Python str methods) -/

/-- Characters recognised by Python str.strip() for the ASCII inputs this
pipeline handles. -/
def isPySpaceChar (c : Char) : Bool :=
  c == ' ' || c == '\t' || c == '\n' || c == '\r' || c == '\x0b' || c == '\x0c'

/-- Python str.startswith on character lists. -/
def startsWithL : List Char → List Char → Bool
  | [], _ => true
  | _ :: _, [] => false
  | a :: as, b :: bs => a == b && startsWithL as bs

/-- Python str.endswith on character lists. -/
def endsWithL (suf l : List Char) : Bool :=
  startsWithL suf.reverse l.reverse

/-- Python substring containment (the `in` operator) on character lists. -/
def containsSub (needle : List Char) : List Char → Bool
  | [] => startsWithL needle []
  | c :: t => startsWithL needle (c :: t) || containsSub needle t

/-- Python str.lstrip restricted to a character predicate. -/
def lstripP (p : Char → Bool) (l : List Char) : List Char := l.dropWhile p

/-- Python str.rstrip restricted to a character predicate. -/
def rstripP (p : Char → Bool) (l : List Char) : List Char :=
  (l.reverse.dropWhile p).reverse

/-- Python str.strip restricted to a character predicate. -/
def stripP (p : Char → Bool) (l : List Char) : List Char :=
  lstripP p (rstripP p l)

/-- Python str.strip() (whitespace). -/
def pyStrip (l : List Char) : List Char := stripP isPySpaceChar l

/-- Python str.rstrip() (whitespace). -/
def pyRstrip (l : List Char) : List Char := rstripP isPySpaceChar l

/-! ## check_deps.py: normalizer (strip_version_constraint, normalize_dep_name) -/

/-- Version-constraint characters: the regex class `[><=]` in
strip_version_constraint. -/
def isConstraintChar (c : Char) : Bool := c == '>' || c == '<' || c == '='

/-- `re.split(r'[><=]', dep)[0].strip()` on character lists: everything before
the first constraint character, whitespace-stripped. -/
def stripVersionConstraintL (l : List Char) : List Char :=
  pyStrip (l.takeWhile (fun c => !isConstraintChar c))

/-- `normalize_dep_name` on character lists: strip the version constraint,
then remove a trailing literal `.so` (Python `dep[:-3]`). -/
def normalizeL (l : List Char) : List Char :=
  let d := stripVersionConstraintL l
  if endsWithL ['.', 's', 'o'] d then d.take (d.length - 3) else d

/-- scripts/check_deps.py strip_version_constraint. -/
def strip_version_constraint (s : String) : String := ⟨stripVersionConstraintL s.data⟩

/-- scripts/check_deps.py normalize_dep_name. -/
def normalize_dep_name (s : String) : String := ⟨normalizeL s.data⟩

/-! ## check_deps.py: static mapping tables -/

/-- Lookup in a Python dict literal built from an association list: later
bindings overwrite earlier ones, exactly as in a Python dict display with
duplicated keys. -/
def pyDictLookup [DecidableEq κ] (tbl : List (κ × α)) (k : κ) : Option α :=
  tbl.foldl (fun acc p => if p.1 = k then some p.2 else acc) none

/-- Python `key in dict`. -/
def pyDictContains [DecidableEq κ] (tbl : List (κ × α)) (k : κ) : Bool :=
  (pyDictLookup tbl k).isSome

/-- ARCH_TO_ROOKERY from scripts/check_deps.py (values of None model Python
None, an explicit ignore). -/
def ARCH_TO_ROOKERY : List (String × Option String) := [
  ("qt6-base", some "qt6"),
  ("qt6-declarative", some "qt6"),
  ("qt6-wayland", some "qt6"),
  ("qt6-svg", some "qt6"),
  ("qt6-tools", some "qt6"),
  ("qt6-multimedia", some "qt6"),
  ("qt6-networkauth", some "qt6"),
  ("qt6-websockets", some "qt6"),
  ("qt6-webengine", some "qtwebengine"),
  ("qt6-webchannel", some "qt6"),
  ("qt6-positioning", some "qt6"),
  ("qt6-sensors", some "qt6"),
  ("qt6-serialport", some "qt6"),
  ("qt6-connectivity", some "qt6"),
  ("qt6-imageformats", some "qt6"),
  ("qt6-5compat", some "qt6"),
  ("qt6-shadertools", some "qt6"),
  ("qt6-quick3d", some "qt6"),
  ("qt6-speech", some "qt6"),
  ("frameworkintegration5", none),
  ("kconfigwidgets5", none),
  ("kiconthemes5", none),
  ("kirigami2", none),
  ("kwindowsystem5", none),
  ("breeze5", none),
  ("karchive", some "kf6-karchive"),
  ("kauth", some "kf6-kauth"),
  ("kbookmarks", some "kf6-kbookmarks"),
  ("kcalendarcore", some "kf6-kcalendarcore"),
  ("kcmutils", some "kf6-kcmutils"),
  ("kcodecs", some "kf6-kcodecs"),
  ("kcolorscheme", some "kf6-kcolorscheme"),
  ("kcompletion", some "kf6-kcompletion"),
  ("kconfig", some "kf6-kconfig"),
  ("kconfigwidgets", some "kf6-kconfigwidgets"),
  ("kcontacts", some "kf6-kcontacts"),
  ("kcoreaddons", some "kf6-kcoreaddons"),
  ("kcrash", some "kf6-kcrash"),
  ("kdav", some "kf6-kdav"),
  ("kdbusaddons", some "kf6-kdbusaddons"),
  ("kdeclarative", some "kf6-kdeclarative"),
  ("kded", some "kf6-kded"),
  ("kdesu", some "kf6-kdesu"),
  ("kdnssd", some "kf6-kdnssd"),
  ("kdoctools", none),
  ("kfilemetadata", some "kf6-kfilemetadata"),
  ("kglobalaccel", some "kf6-kglobalaccel"),
  ("kguiaddons", some "kf6-kguiaddons"),
  ("kholidays", some "kf6-kholidays"),
  ("ki18n", some "kf6-ki18n"),
  ("kiconthemes", some "kf6-kiconthemes"),
  ("kidletime", some "kf6-kidletime"),
  ("kimageformats", some "kf6-kimageformats"),
  ("kio", some "kf6-kio"),
  ("kirigami", some "kf6-kirigami"),
  ("kitemmodels", some "kf6-kitemmodels"),
  ("kitemviews", some "kf6-kitemviews"),
  ("kjobwidgets", some "kf6-kjobwidgets"),
  ("knewstuff", some "kf6-knewstuff"),
  ("knotifications", some "kf6-knotifications"),
  ("knotifyconfig", some "kf6-knotifyconfig"),
  ("kpackage", some "kf6-kpackage"),
  ("kparts", some "kf6-kparts"),
  ("kpeople", some "kf6-kpeople"),
  ("kplotting", some "kf6-kplotting"),
  ("kpty", some "kf6-kpty"),
  ("kquickcharts", some "kf6-kquickcharts"),
  ("krunner", some "kf6-krunner"),
  ("kservice", some "kf6-kservice"),
  ("kstatusnotifieritem", some "kf6-kstatusnotifieritem"),
  ("ksvg", some "kf6-ksvg"),
  ("ktexteditor", some "kf6-ktexteditor"),
  ("ktexttemplate", some "kf6-ktexttemplate"),
  ("ktextwidgets", some "kf6-ktextwidgets"),
  ("kunitconversion", some "kf6-kunitconversion"),
  ("kuserfeedback", some "kf6-kuserfeedback"),
  ("kwallet", some "kf6-kwallet"),
  ("kwidgetsaddons", some "kf6-kwidgetsaddons"),
  ("kwindowsystem", some "kf6-kwindowsystem"),
  ("kxmlgui", some "kf6-kxmlgui"),
  ("solid", some "kf6-solid"),
  ("sonnet", some "kf6-sonnet"),
  ("syndication", some "kf6-syndication"),
  ("syntax-highlighting", some "kf6-syntax-highlighting"),
  ("threadweaver", some "kf6-threadweaver"),
  ("attica", some "kf6-attica"),
  ("baloo", some "kf6-baloo"),
  ("bluez-qt", some "kf6-bluez-qt"),
  ("frameworkintegration", some "kf6-frameworkintegration"),
  ("modemmanager-qt", some "kf6-modemmanager-qt"),
  ("networkmanager-qt", some "kf6-networkmanager-qt"),
  ("prison", some "kf6-prison"),
  ("purpose", some "kf6-purpose"),
  ("qqc2-desktop-style", some "kf6-qqc2-desktop-style"),
  ("kf6-karchive", some "kf6-karchive"),
  ("kf6-kauth", some "kf6-kauth"),
  ("kf6-kdoctools", none),
  ("kf6-kcmutils", some "kf6-kcmutils"),
  ("kf6-kconfig", some "kf6-kconfig"),
  ("kf6-kcoreaddons", some "kf6-kcoreaddons"),
  ("kf6-kcrash", some "kf6-kcrash"),
  ("kf6-kdbusaddons", some "kf6-kdbusaddons"),
  ("kf6-kdeclarative", some "kf6-kdeclarative"),
  ("kf6-kglobalaccel", some "kf6-kglobalaccel"),
  ("kf6-kguiaddons", some "kf6-kguiaddons"),
  ("kf6-ki18n", some "kf6-ki18n"),
  ("kf6-kiconthemes", some "kf6-kiconthemes"),
  ("kf6-kidletime", some "kf6-kidletime"),
  ("kf6-kio", some "kf6-kio"),
  ("kf6-kirigami", some "kf6-kirigami"),
  ("kf6-kitemmodels", some "kf6-kitemmodels"),
  ("kf6-kjobwidgets", some "kf6-kjobwidgets"),
  ("kf6-knewstuff", some "kf6-knewstuff"),
  ("kf6-knotifications", some "kf6-knotifications"),
  ("kf6-kpackage", some "kf6-kpackage"),
  ("kf6-kparts", some "kf6-kparts"),
  ("kf6-krunner", some "kf6-krunner"),
  ("kf6-kservice", some "kf6-kservice"),
  ("kf6-ksvg", some "kf6-ksvg"),
  ("kf6-kwidgetsaddons", some "kf6-kwidgetsaddons"),
  ("kf6-kwindowsystem", some "kf6-kwindowsystem"),
  ("kf6-kxmlgui", some "kf6-kxmlgui"),
  ("kf6-solid", some "kf6-solid"),
  ("kf6-frameworkintegration", some "kf6-frameworkintegration"),
  ("kf6-kcolorscheme", some "kf6-kcolorscheme"),
  ("kf6-kquickcharts", some "kf6-kquickcharts"),
  ("glibc", some "glibc"),
  ("gcc-libs", some "gcc"),
  ("gcc", some "gcc"),
  ("glib2", some "glib2"),
  ("gtk3", some "gtk3"),
  ("gtk4", some "gtk4"),
  ("systemd", some "systemd"),
  ("systemd-libs", some "systemd"),
  ("util-linux-libs", some "util-linux"),
  ("linux-api-headers", some "linux"),
  ("libx11", some "libx11"),
  ("libxcb", some "libxcb"),
  ("libxext", some "libxext"),
  ("libxrender", some "libxrender"),
  ("libxi", some "libxi"),
  ("libxtst", some "libxtst"),
  ("libxkbcommon", some "libxkbcommon"),
  ("libxkbcommon-x11", some "libxkbcommon"),
  ("libxkbfile", some "libxkbfile"),
  ("libxcursor", some "libxcursor"),
  ("libxfixes", some "libxfixes"),
  ("libxdamage", some "libxdamage"),
  ("libxrandr", some "libxrandr"),
  ("libxinerama", some "libxinerama"),
  ("libxxf86vm", some "libxxf86vm"),
  ("libxshmfence", some "libxshmfence"),
  ("libxcomposite", some "libxcomposite"),
  ("wayland", some "wayland"),
  ("wayland-protocols", some "wayland-protocols"),
  ("mesa", some "mesa"),
  ("libdrm", some "libdrm"),
  ("libglvnd", some "libglvnd"),
  ("vulkan-icd-loader", some "vulkan-loader"),
  ("vulkan-headers", some "vulkan-headers"),
  ("libepoxy", some "libepoxy"),
  ("libva", some "libva"),
  ("libvdpau", some "libvdpau"),
  ("zlib", some "zlib"),
  ("xz", some "xz"),
  ("bzip2", some "bzip2"),
  ("zstd", some "zstd"),
  ("lz4", some "lz4"),
  ("brotli", some "brotli"),
  ("lzo", some "lzo"),
  ("snappy", some "snappy"),
  ("curl", some "curl"),
  ("openssl", some "openssl"),
  ("gnutls", some "gnutls"),
  ("libssh", some "libssh"),
  ("libssh2", some "libssh2"),
  ("nghttp2", some "nghttp2"),
  ("libnghttp2", some "nghttp2"),
  ("libnghttp3", some "nghttp3"),
  ("libidn2", some "libidn2"),
  ("libpsl", some "libpsl"),
  ("c-ares", some "c-ares"),
  ("krb5", some "krb5"),
  ("libpng", some "libpng"),
  ("libjpeg-turbo", some "libjpeg-turbo"),
  ("libtiff", some "libtiff"),
  ("libwebp", some "libwebp"),
  ("giflib", some "giflib"),
  ("openjpeg2", some "openjpeg"),
  ("libraw", some "libraw"),
  ("libheif", some "libheif"),
  ("libavif", some "libavif"),
  ("libjxl", some "libjxl"),
  ("librsvg", some "librsvg"),
  ("gdk-pixbuf2", some "gdk-pixbuf2"),
  ("graphite", some "graphite"),
  ("freetype2", some "freetype"),
  ("fontconfig", some "fontconfig"),
  ("harfbuzz", some "harfbuzz"),
  ("harfbuzz-icu", some "harfbuzz"),
  ("pango", some "pango"),
  ("cairo", some "cairo"),
  ("pixman", some "pixman"),
  ("fribidi", some "fribidi"),
  ("pipewire", some "pipewire"),
  ("pipewire-audio", some "pipewire"),
  ("pipewire-session-manager", some "wireplumber"),
  ("libpipewire", some "pipewire"),
  ("wireplumber", some "wireplumber"),
  ("pulseaudio", some "pulseaudio"),
  ("libpulse", some "pulseaudio"),
  ("alsa-lib", some "alsa-lib"),
  ("ffmpeg", some "ffmpeg"),
  ("libavcodec.so", none),
  ("libavformat.so", none),
  ("libavutil.so", none),
  ("libswscale.so", none),
  ("libswresample.so", none),
  ("gstreamer", some "gstreamer"),
  ("gst-plugins-base", some "gst-plugins-base"),
  ("gst-plugins-good", some "gst-plugins-good"),
  ("sndio", some "sndio"),
  ("jack", some "jack2"),
  ("jack2", some "jack2"),
  ("opus", some "opus"),
  ("libvorbis", some "libvorbis"),
  ("flac", some "flac"),
  ("lame", some "lame"),
  ("libsamplerate", some "libsamplerate"),
  ("speexdsp", some "speexdsp"),
  ("libcanberra", some "libcanberra"),
  ("sqlite", some "sqlite"),
  ("sqlite3", some "sqlite"),
  ("lmdb", some "lmdb"),
  ("leveldb", some "leveldb"),
  ("libgcrypt", some "libgcrypt"),
  ("libgpg-error", some "libgpg-error"),
  ("gnupg", some "gnupg"),
  ("gpgme", some "gpgme"),
  ("libsecret", some "libsecret"),
  ("libcap", some "libcap"),
  ("libcap-ng", some "libcap-ng"),
  ("audit", some "audit"),
  ("pam", some "linux-pam"),
  ("linux-pam", some "linux-pam"),
  ("polkit", some "polkit"),
  ("libxcrypt", some "libxcrypt"),
  ("dbus", some "dbus"),
  ("at-spi2-core", some "at-spi2-core"),
  ("at-spi2-atk", some "at-spi2-core"),
  ("libxml2", some "libxml2"),
  ("libxslt", some "libxslt"),
  ("expat", some "expat"),
  ("icu", some "icu"),
  ("pcre", some "pcre"),
  ("pcre2", some "pcre2"),
  ("oniguruma", some "oniguruma"),
  ("json-c", some "json-c"),
  ("json-glib", some "json-glib"),
  ("jansson", some "jansson"),
  ("jsoncpp", some "jsoncpp"),
  ("yaml-cpp", some "yaml-cpp"),
  ("libyaml", some "libyaml"),
  ("libffi", some "libffi"),
  ("libevent", some "libevent"),
  ("libuv", some "libuv"),
  ("libev", some "libev"),
  ("boost", some "boost"),
  ("boost-libs", some "boost"),
  ("ell", some "ell"),
  ("libelf", none),
  ("elfutils", none),
  ("libdwarf", some "libdwarf"),
  ("libunwind", some "libunwind"),
  ("orc", some "orc"),
  ("fftw", some "fftw"),
  ("gsl", some "gsl"),
  ("openblas", some "openblas"),
  ("lapack", some "lapack"),
  ("hdf5", some "hdf5"),
  ("netcdf", some "netcdf"),
  ("libinput", some "libinput"),
  ("libevdev", some "libevdev"),
  ("mtdev", some "mtdev"),
  ("libwacom", some "libwacom"),
  ("xf86-input-libinput", some "xf86-input-libinput"),
  ("bluez", some "bluez"),
  ("bluez-libs", some "bluez"),
  ("cups", some "cups"),
  ("libcups", some "cups"),
  ("cups-filters", some "cups-filters"),
  ("sane", some "sane-backends"),
  ("aspell", some "aspell"),
  ("hunspell", some "hunspell"),
  ("enchant", some "enchant"),
  ("python", some "python"),
  ("python3", some "python"),
  ("perl", some "perl"),
  ("ruby", some "ruby"),
  ("cmake", some "cmake"),
  ("ninja", some "ninja"),
  ("meson", some "meson"),
  ("make", some "make"),
  ("autoconf", some "autoconf"),
  ("automake", some "automake"),
  ("libtool", some "libtool"),
  ("m4", some "m4"),
  ("bison", some "bison"),
  ("flex", some "flex"),
  ("extra-cmake-modules", some "extra-cmake-modules"),
  ("pkgconf", some "pkgconf"),
  ("pkg-config", some "pkgconf"),
  ("gettext", some "gettext"),
  ("intltool", some "intltool"),
  ("gobject-introspection", some "gobject-introspection"),
  ("vala", some "vala"),
  ("swig", some "swig"),
  ("doxygen", some "doxygen"),
  ("ncurses", some "ncurses"),
  ("readline", some "readline"),
  ("coreutils", some "coreutils"),
  ("findutils", some "findutils"),
  ("diffutils", some "diffutils"),
  ("patch", some "patch"),
  ("gzip", some "gzip"),
  ("tar", some "tar"),
  ("gawk", some "gawk"),
  ("sed", some "sed"),
  ("grep", some "grep"),
  ("file", some "file"),
  ("which", some "which"),
  ("less", some "less"),
  ("git", some "git"),
  ("subversion", some "subversion"),
  ("mercurial", some "mercurial"),
  ("iproute2", some "iproute2"),
  ("iputils", some "iputils"),
  ("net-tools", some "net-tools"),
  ("openssh", some "openssh"),
  ("wget", some "wget"),
  ("rsync", some "rsync"),
  ("pciutils", some "pciutils"),
  ("usbutils", some "usbutils"),
  ("hwdata", some "hwdata"),
  ("dmidecode", some "dmidecode"),
  ("lm_sensors", some "lm_sensors"),
  ("smartmontools", some "smartmontools"),
  ("xdg-desktop-portal", some "xdg-desktop-portal"),
  ("xdg-utils", some "xdg-utils"),
  ("desktop-file-utils", some "desktop-file-utils"),
  ("shared-mime-info", some "shared-mime-info"),
  ("hicolor-icon-theme", some "hicolor-icon-theme"),
  ("adwaita-icon-theme", some "adwaita-icon-theme"),
  ("gsettings-desktop-schemas", some "gsettings-desktop-schemas"),
  ("opencv", some "opencv"),
  ("iio-sensor-proxy", some "iio-sensor-proxy"),
  ("libimobiledevice", some "libimobiledevice"),
  ("usbmuxd", some "usbmuxd"),
  ("plasma-workspace", some "plasma-workspace"),
  ("plasma-desktop", some "plasma-desktop"),
  ("plasma-framework", some "libplasma"),
  ("libplasma", some "libplasma"),
  ("kwayland", some "kwayland"),
  ("kwayland-integration", some "kwayland"),
  ("layer-shell-qt", some "layer-shell-qt"),
  ("libkscreen", some "libkscreen"),
  ("libksysguard", some "libksysguard"),
  ("kdecoration", some "kdecoration"),
  ("plasma5support", some "plasma5support"),
  ("kpipewire", some "kpipewire"),
  ("kactivitymanagerd", some "kactivitymanagerd"),
  ("kglobalacceld", some "kglobalacceld"),
  ("kscreenlocker", some "kscreenlocker"),
  ("kwin", some "kwin"),
  ("breeze", some "breeze"),
  ("breeze-icons", some "breeze-icons"),
  ("breeze-gtk", some "breeze-gtk"),
  ("oxygen", some "oxygen"),
  ("oxygen-icons", some "oxygen-icons"),
  ("sddm", some "sddm"),
  ("sddm-kcm", some "sddm-kcm"),
  ("systemsettings", some "systemsettings"),
  ("kinfocenter", some "kinfocenter"),
  ("plasma-nm", some "plasma-nm"),
  ("plasma-pa", some "plasma-pa"),
  ("bluedevil", some "bluedevil"),
  ("powerdevil", some "powerdevil"),
  ("kscreen", some "kscreen"),
  ("drkonqi", some "drkonqi"),
  ("milou", some "milou"),
  ("xdg-desktop-portal-kde", some "xdg-desktop-portal-kde"),
  ("polkit-kde-agent", some "polkit-kde-agent"),
  ("kde-cli-tools", some "kde-cli-tools"),
  ("kde-gtk-config", some "kde-gtk-config"),
  ("kmenuedit", some "kmenuedit"),
  ("ksystemstats", some "ksystemstats"),
  ("plasma-integration", some "plasma-integration"),
  ("qqc2-breeze-style", some "qqc2-breeze-style"),
  ("kwallet-pam", some "kwallet-pam"),
  ("ksshaskpass", some "ksshaskpass"),
  ("kwrited", some "kwrited"),
  ("kgamma", some "kgamma"),
  ("plasma-workspace-wallpapers", some "plasma-workspace-wallpapers"),
  ("kdeplasma-addons", some "kdeplasma-addons"),
  ("spectacle", some "spectacle"),
  ("print-manager", some "print-manager"),
  ("plasma-systemmonitor", some "plasma-systemmonitor"),
  ("plasma-disks", some "plasma-disks"),
  ("plasma-firewall", some "plasma-firewall"),
  ("plasma-vault", some "plasma-vault"),
  ("plasma-thunderbolt", some "plasma-thunderbolt"),
  ("plasma-welcome", some "plasma-welcome"),
  ("wacomtablet", some "wacomtablet"),
  ("discover", some "discover"),
  ("ocean-sound-theme", some "ocean-sound-theme"),
  ("oxygen-sounds", some "oxygen-sounds"),
  ("flatpak-kcm", some "flatpak-kcm"),
  ("lcms2", some "lcms2"),
  ("libexif", some "libexif"),
  ("exiv2", some "exiv2"),
  ("poppler", some "poppler"),
  ("poppler-qt6", some "poppler"),
  ("djvulibre", some "djvulibre"),
  ("libspectre", some "libspectre"),
  ("ebook-tools", some "ebook-tools"),
  ("chmlib", some "chmlib"),
  ("discount", some "discount"),
  ("speech-dispatcher", some "speech-dispatcher"),
  ("espeak-ng", some "espeak-ng"),
  ("festival", some "festival"),
  ("upower", some "upower"),
  ("acpid", some "acpid"),
  ("tlp", some "tlp"),
  ("ddcutil", some "ddcutil"),
  ("colord", some "colord"),
  ("accountsservice", some "accountsservice"),
  ("packagekit", some "packagekit"),
  ("packagekit-qt6", some "packagekit"),
  ("appstream", some "appstream"),
  ("appstream-qt", some "appstream"),
  ("flatpak", some "flatpak"),
  ("fwupd", some "fwupd"),
  ("bolt", some "bolt"),
  ("udisks2", some "udisks2"),
  ("media-player-info", some "media-player-info"),
  ("libarchive", some "libarchive"),
  ("p7zip", some "p7zip"),
  ("unrar", some "unrar"),
  ("unzip", some "unzip"),
  ("zip", some "zip"),
  ("libkdegames", some "libkdegames"),
  ("libkmahjongg", some "libkmahjongg"),
  ("libkdcraw", some "libkdcraw"),
  ("libkexiv2", some "libkexiv2"),
  ("libksane", some "libksane"),
  ("kimageannotator", some "kimageannotator"),
  ("kcolorpicker", some "kcolorpicker"),
  ("phonon-qt6", some "phonon"),
  ("phonon-qt6-vlc", some "phonon-vlc"),
  ("phonon-qt6-gstreamer", some "phonon-gstreamer"),
  ("vlc", some "vlc"),
  ("libvlc", some "vlc"),
  ("libxaw", some "libxaw"),
  ("libxmu", some "libxmu"),
  ("libxt", some "libxt"),
  ("libxpm", some "libxpm"),
  ("libxss", some "libxscrnsaver"),
  ("libxscrnsaver", some "libxscrnsaver"),
  ("libxft", some "libxft"),
  ("libxv", some "libxv"),
  ("libxvmc", some "libxvmc"),
  ("libxxf86dga", some "libxxf86dga"),
  ("xcb-util", some "xcb-util"),
  ("xcb-util-wm", some "xcb-util-wm"),
  ("xcb-util-image", some "xcb-util-image"),
  ("xcb-util-keysyms", some "xcb-util-keysyms"),
  ("xcb-util-renderutil", some "xcb-util-renderutil"),
  ("xcb-util-cursor", some "xcb-util-cursor"),
  ("wlroots", some "wlroots"),
  ("xdg-desktop-portal-wlr", some "xdg-desktop-portal-wlr"),
  ("samba", some "samba"),
  ("libwbclient", some "samba"),
  ("smbclient", some "samba"),
  ("libnm", some "networkmanager"),
  ("libmm-glib", some "modemmanager"),
  ("gst-plugins-base-libs", some "gst-plugins-base"),
  ("gst-plugins-bad", some "gst-plugins-bad"),
  ("gst-plugins-ugly", some "gst-plugins-ugly"),
  ("gst-plugin-pipewire", some "pipewire"),
  ("gst-libav", some "gst-libav"),
  ("mpg123", some "mpg123"),
  ("openexr", some "openexr"),
  ("imath", some "imath"),
  ("nettle", some "nettle"),
  ("orc", some "orc"),
  ("libusb", some "libusb"),
  ("libnl", some "libnl"),
  ("libpcap", some "libpcap"),
  ("libnftnl", some "libnftnl"),
  ("nftables", some "nftables"),
  ("iptables", some "iptables"),
  ("wayland-utils", some "wayland"),
  ("weston", some "weston"),
  ("alsa-utils", some "alsa-utils"),
  ("alsa-plugins", some "alsa-plugins"),
  ("alsa-oss", some "alsa-oss"),
  ("libglib-2.0", some "glib2"),
  ("libgio-2.0", some "glib2"),
  ("libgobject-2.0", some "glib2"),
  ("libgmodule-2.0", some "glib2"),
  ("libgthread-2.0", some "glib2"),
]

/-- IGNORE_PACKAGES from scripts/check_deps.py. -/
def IGNORE_PACKAGES : List String := [
  "base",
  "base-devel",
  "filesystem",
  "sh",
  "pacman",
  "bash",
  "coreutils",
  "grep",
  "sed",
  "gawk",
  "findutils",
  "util-linux",
  "which",
  "less",
  "file",
  "tar",
  "gzip",
  "git",
  "subversion",
  "mercurial",
  "wget",
  "rsync",
  "doxygen",
  "sphinx",
  "asciidoc",
  "xmlto",
  "docbook-xsl",
  "docbook-xml",
  "gtk-doc",
  "help2man",
  "texinfo",
  "check",
  "cppunit",
  "gtest",
  "python-pytest",
  "python-mock",
  "python-nose",
  "valgrind",
  "hicolor-icon-theme",
  "xdg-utils",
  "desktop-file-utils",
  "shared-mime-info",
  "xorg-server",
  "xorg-xwayland",
  "xorg-setxkbmap",
  "xorg-xrdb",
  "xorg-xinit",
  "xorg-xprop",
  "xorg-xset",
  "xorg-xrandr",
  "linux-firmware",
  "amd-ucode",
  "intel-ucode",
  "ttf-dejavu",
  "ttf-liberation",
  "ttf-freefont",
  "noto-fonts",
  "noto-fonts-emoji",
  "cantarell-fonts",
  "python-pip",
  "python-setuptools",
  "python-wheel",
  "python-build",
  "python-installer",
  "python-hatchling",
  "python-flit-core",
  "python-poetry-core",
  "cython",
  "perl-extutils-makemaker",
  "perl-test-simple",
  "perl-test-harness",
  "ruby-bundler",
  "ruby-rake",
  "glibc-locales",
  "ca-certificates",
  "tzdata",
  "avahi",
  "networkmanager",
  "modemmanager",
  "wpa_supplicant",
  "systemd-sysvcompat",
  "systemd-resolvconf",
  "systemd-ukify",
  "xorgproto",
  "xcb-proto",
  "xproto",
  "kbproto",
  "inputproto",
  "randrproto",
  "renderproto",
  "xextproto",
  "fixesproto",
  "damageproto",
  "compositeproto",
  "gobject-introspection",
  "pyside6",
  "pyside2",
  "pyqt6",
  "pyqt5",
  "sip",
  "qt5-base",
  "qt5-declarative",
  "qt5-wayland",
  "qt5-svg",
  "qt5-tools",
  "qt5-multimedia",
  "qt5-x11extras",
  "qt5-xmlpatterns",
  "qt5-graphicaleffects",
  "qt5-quickcontrols2",
  "webrtc-audio-processing",
  "webrtc-audio-processing-1",
  "llvm",
  "llvm-libs",
  "clang",
  "lld",
  "meson",
  "ninja",
  "cmake",
  "rust",
  "cargo",
  "go",
  "qrencode",
  "libdvdread",
  "libdvdnav",
  "libdvdcss",
  "libass",
  "libcdio",
  "libcdio-paranoia",
  "libbluray",
  "libsndfile",
  "mpg123",
  "openjpeg",
  "openexr",
  "imath",
  "libraw",
  "libheif",
  "libavif",
  "libjxl",
  "jack2",
  "jack",
  "orc",
  "libusb",
  "libnl",
  "elfutils",
  "kf6-kdoctools",
]

/-- The lib_mappings dict local to map_arch_to_rookery. -/
def lib_mappings : List (String × Option String) := [
  ("libncursesw", some "ncurses"),
  ("libncurses", some "ncurses"),
  ("libreadline", some "readline"),
  ("libz", some "zlib"),
  ("libbz2", some "bzip2"),
  ("liblzma", some "xz"),
  ("libzstd", some "zstd"),
  ("liblz4", some "lz4"),
  ("libcrypto", some "openssl"),
  ("libssl", some "openssl"),
  ("libcurl", some "curl"),
  ("libxml2", some "libxml2"),
  ("libxslt", some "libxslt"),
  ("libpng16", some "libpng"),
  ("libpng", some "libpng"),
  ("libjpeg", some "libjpeg-turbo"),
  ("libtiff", some "libtiff"),
  ("libwebp", some "libwebp"),
  ("libgif", some "giflib"),
  ("libfreetype", some "freetype"),
  ("libfontconfig", some "fontconfig"),
  ("libharfbuzz", some "harfbuzz"),
  ("libpango-1.0", some "pango"),
  ("libcairo", some "cairo"),
  ("libpixman-1", some "pixman"),
  ("libfribidi", some "fribidi"),
  ("libglib-2.0", some "glib2"),
  ("libgio-2.0", some "glib2"),
  ("libgobject-2.0", some "glib2"),
  ("libgmodule-2.0", some "glib2"),
  ("libgthread-2.0", some "glib2"),
  ("libgtk-3", some "gtk3"),
  ("libgtk-4", some "gtk4"),
  ("libgdk-3", some "gtk3"),
  ("libgdk_pixbuf-2.0", some "gdk-pixbuf2"),
  ("libatk-1.0", some "at-spi2-core"),
  ("libatspi", some "at-spi2-core"),
  ("libdbus-1", some "dbus"),
  ("libsystemd", some "systemd"),
  ("libudev", some "systemd"),
  ("libpulse", some "pulseaudio"),
  ("libpulse-simple", some "pulseaudio"),
  ("libasound", some "alsa-lib"),
  ("libpipewire-0.3", some "pipewire"),
  ("libspa-0.2", some "pipewire"),
  ("libX11", some "libx11"),
  ("libXext", some "libxext"),
  ("libXrender", some "libxrender"),
  ("libXi", some "libxi"),
  ("libXtst", some "libxtst"),
  ("libXcursor", some "libxcursor"),
  ("libXfixes", some "libxfixes"),
  ("libXdamage", some "libxdamage"),
  ("libXrandr", some "libxrandr"),
  ("libXinerama", some "libxinerama"),
  ("libXxf86vm", some "libxxf86vm"),
  ("libXshmfence", some "libxshmfence"),
  ("libXcomposite", some "libxcomposite"),
  ("libxcb", some "libxcb"),
  ("libxkbcommon", some "libxkbcommon"),
  ("libwayland-client", some "wayland"),
  ("libwayland-server", some "wayland"),
  ("libwayland-cursor", some "wayland"),
  ("libwayland-egl", some "wayland"),
  ("libdrm", some "libdrm"),
  ("libGL", some "mesa"),
  ("libGLESv2", some "mesa"),
  ("libEGL", some "mesa"),
  ("libgbm", some "mesa"),
  ("libvulkan", some "vulkan-loader"),
  ("libepoxy", some "libepoxy"),
  ("libva", some "libva"),
  ("libvdpau", some "libvdpau"),
  ("libinput", some "libinput"),
  ("libevdev", some "libevdev"),
  ("libffi", some "libffi"),
  ("libevent", some "libevent"),
  ("libuv", some "libuv"),
  ("libpcre2-8", some "pcre2"),
  ("libpcre", some "pcre"),
  ("libicu", some "icu"),
  ("libicui18n", some "icu"),
  ("libicuuc", some "icu"),
  ("libicudata", some "icu"),
  ("libexpat", some "expat"),
  ("libjson-c", some "json-c"),
  ("libsqlite3", some "sqlite"),
  ("liblmdb", some "lmdb"),
  ("libgcrypt", some "libgcrypt"),
  ("libgpg-error", some "libgpg-error"),
  ("libsecret-1", some "libsecret"),
  ("libcap", some "libcap"),
  ("libelf", none),
  ("libdw", none),
  ("libunwind", some "libunwind"),
  ("libboost_system", some "boost"),
  ("libboost_filesystem", some "boost"),
  ("libboost_thread", some "boost"),
  ("libopus", some "opus"),
  ("libvorbis", some "libvorbis"),
  ("libvorbisenc", some "libvorbis"),
  ("libvorbisfile", some "libvorbis"),
  ("libFLAC", some "flac"),
  ("libmp3lame", some "lame"),
  ("libsamplerate", some "libsamplerate"),
  ("libspeexdsp", some "speexdsp"),
  ("libavcodec", some "ffmpeg"),
  ("libavformat", some "ffmpeg"),
  ("libavutil", some "ffmpeg"),
  ("libswscale", some "ffmpeg"),
  ("libswresample", some "ffmpeg"),
  ("libavfilter", some "ffmpeg"),
  ("libavdevice", some "ffmpeg"),
  ("libpostproc", some "ffmpeg"),
  ("libgstreamer-1.0", some "gstreamer"),
  ("libcrypt", some "libxcrypt"),
  ("libxcrypt", some "libxcrypt"),
  ("libgio-2.0", some "glib2"),
  ("libgmodule-2.0", some "glib2"),
  ("libgthread-2.0", some "glib2"),
  ("libgobject-2.0", some "glib2"),
  ("libglib-2.0", some "glib2"),
  ("libdbus-1", some "dbus"),
  ("libsystemd", some "systemd"),
  ("libudev", some "systemd"),
  ("libblkid", some "util-linux"),
  ("libmount", some "util-linux"),
  ("libuuid", some "util-linux"),
  ("libattr", some "attr"),
  ("libacl", some "acl"),
  ("libbz2", some "bzip2"),
  ("liblzma", some "xz"),
  ("libzstd", some "zstd"),
  ("liblz4", some "lz4"),
  ("libbrotlidec", some "brotli"),
  ("libbrotlienc", some "brotli"),
  ("libbrotlicommon", some "brotli"),
  ("libasound", some "alsa-lib"),
  ("libreadline", some "readline"),
  ("libncurses", some "ncurses"),
  ("libncursesw", some "ncurses"),
  ("libform", some "ncurses"),
  ("libformw", some "ncurses"),
  ("libmenu", some "ncurses"),
  ("libmenuw", some "ncurses"),
  ("libpanel", some "ncurses"),
  ("libpanelw", some "ncurses"),
  ("libtic", some "ncurses"),
  ("libtinfo", some "ncurses"),
  ("libtinfow", some "ncurses"),
  ("libQt6Core", some "qt6"),
  ("libQt6Gui", some "qt6"),
  ("libQt6Widgets", some "qt6"),
  ("libQt6Network", some "qt6"),
  ("libQt6DBus", some "qt6"),
  ("libQt6Qml", some "qt6"),
  ("libQt6Quick", some "qt6"),
  ("libQt6Svg", some "qt6"),
  ("libQt6Xml", some "qt6"),
  ("libQt6Concurrent", some "qt6"),
  ("libQt6OpenGL", some "qt6"),
  ("libQt6PrintSupport", some "qt6"),
  ("libQt6Sql", some "qt6"),
  ("libQt6Test", some "qt6"),
  ("libQt6WaylandClient", some "qt6"),
  ("libKF6CoreAddons", some "kf6-kcoreaddons"),
  ("libKF6ConfigCore", some "kf6-kconfig"),
  ("libKF6I18n", some "kf6-ki18n"),
  ("libKF6Service", some "kf6-kservice"),
  ("libKF6KIOCore", some "kf6-kio"),
  ("libKF6WidgetsAddons", some "kf6-kwidgetsaddons"),
  ("libKF6WindowSystem", some "kf6-kwindowsystem"),
  ("libKF6DBusAddons", some "kf6-kdbusaddons"),
  ("libKF6Crash", some "kf6-kcrash"),
  ("libKF6GuiAddons", some "kf6-kguiaddons"),
]

/-- The arch_split_packages dict local to map_arch_to_rookery. -/
def arch_split_packages : List (String × Option String) := [
  ("alsa-topology-conf", some "alsa-lib"),
  ("alsa-ucm-conf", some "alsa-lib"),
  ("bash-completion", none),
  ("nss-mdns", none),
  ("debuginfod", none),
  ("xorg-font-util", none),
  ("xorg-util-macros", none),
  ("xorg-xkbcomp", some "xkeyboard-config"),
  ("xtrans", none),
  ("gperf", none),
  ("gi-docgen", none),
  ("itstool", none),
  ("xmltoman", none),
  ("graphviz", none),
  ("dbus-broker", some "dbus"),
  ("mesa-libgl", some "mesa"),
  ("libstemmer", none),
  ("libxmlb", none),
  ("libfyaml", none),
  ("libatopology", some "alsa-lib"),
  ("libformw", some "ncurses"),
  ("libmenuw", some "ncurses"),
  ("libpanelw", some "ncurses"),
  ("psmisc", none),
  ("po4a", none),
  ("ed", none),
  ("uasm", none),
  ("shadow", none),
  ("libcrypt", some "libxcrypt"),
]

/-! ## check_deps.py: map_arch_to_rookery -/

/-- scripts/check_deps.py map_arch_to_rookery: translate an Arch dependency
token to a Rookery package name (none = ignore). -/
def map_arch_to_rookery (arch_dep : String) : Option String :=
  let dep := normalize_dep_name arch_dep
  if IGNORE_PACKAGES.contains dep then none
  else match pyDictLookup ARCH_TO_ROOKERY dep with
  | some result => result
  | none =>
    if endsWithL ['.', 's', 'o'] arch_dep.data then
      match pyDictLookup lib_mappings dep with
      | some v => v
      | none => none
    else if startsWithL "python-".data dep.data then none
    else if startsWithL "perl-".data dep.data then none
    else if startsWithL "lib32-".data dep.data then none
    else if ["-git", "-svn", "-bzr", "-hg"].any (fun suf => endsWithL suf.data dep.data) then
      none
    else if endsWithL "-docs".data dep.data || endsWithL "-doc".data dep.data then none
    else if endsWithL "-devel".data dep.data then
      let base : String := ⟨dep.data.take (dep.data.length - 6)⟩
      match pyDictLookup ARCH_TO_ROOKERY base with
      | some v => v
      | none => some base
    else match pyDictLookup arch_split_packages dep with
    | some v => v
    | none => some dep

/-! ## check_deps.py: package records and compare_dependencies -/

/-- scripts/check_deps.py ArchPackageInfo (dependency token lists). -/
structure ArchPackageInfo where
  name : String
  version : String
  depends : List String := []
  makedepends : List String := []
  optdepends : List String := []
  provides : List String := []

/-- scripts/check_deps.py RookPackageInfo; the three dependency dicts are
association lists from dependency key to version constraint. -/
structure RookPackageInfo where
  name : String
  version : String
  depends : List (String × String) := []
  build_depends : List (String × String) := []
  optional_depends : List (String × String) := []

/-- The result dict of compare_dependencies (the two extra_* lists are
declared by the source but never filled). -/
structure DiffResults where
  missing_depends : List String
  missing_build_depends : List String
  missing_optional : List String
  extra_depends : List String
  extra_build_depends : List String
deriving DecidableEq

/-- Python truthiness filter applied to a mapped name in compare_dependencies:
`if mapped:` keeps the value only when it is neither None nor the empty
string. -/
def truthyMapped (d : String) : Option String :=
  match map_arch_to_rookery d with
  | some s => if s = "" then none else some s
  | none => none

/-- Keep-first deduplication, modelling the Python set built by repeated
set.add; membership agrees with the source set, iteration order (which the
source leaves unspecified) is fixed to first occurrence. -/
def dedupAux (seen : List String) : List String → List String
  | [] => []
  | a :: t => if seen.contains a then dedupAux seen t else a :: dedupAux (a :: seen) t

/-- The set of successfully mapped (truthy) Arch dependency names. -/
def mappedSet (deps : List String) : List String :=
  dedupAux [] (deps.filterMap truthyMapped)

/-- scripts/check_deps.py compare_dependencies. -/
def compare_dependencies (rook : RookPackageInfo) (arch : ArchPackageInfo) : DiffResults :=
  let rook_depends := rook.depends.map Prod.fst
  let rook_build_depends := rook.build_depends.map Prod.fst
  let rook_optional := rook.optional_depends.map Prod.fst
  let arch_depends_mapped := mappedSet arch.depends
  let arch_makedepends_mapped := mappedSet arch.makedepends
  let arch_optdepends_mapped := mappedSet arch.optdepends
  { missing_depends :=
      arch_depends_mapped.filter
        (fun d => !(rook_depends.contains d) && !(rook_build_depends.contains d)),
    missing_build_depends :=
      arch_makedepends_mapped.filter
        (fun d => !(rook_build_depends.contains d) && !(rook_depends.contains d)),
    missing_optional :=
      arch_optdepends_mapped.filter
        (fun d => !(rook_optional.contains d) && !(rook_depends.contains d)),
    extra_depends := [],
    extra_build_depends := [] }

/-- A local record whose build mapping declares mylib (used to probe the
DiffResult invariant). -/
def rookBuildOnly : RookPackageInfo :=
  { name := "demo", version := "1.0",
    build_depends := [("mylib", ">= 1.0")] }

/-- A foreign record whose optional list names mylib. -/
def archOptMylib : ArchPackageInfo :=
  { name := "demo", version := "1.0", optdepends := ["mylib"] }

/-- The C6 scenario: local depends = qt6 only. -/
def rookQt6 : RookPackageInfo :=
  { name := "scenario", version := "1.0", depends := [("qt6", ">=1.0")] }

/-- The C6 scenario: foreign required list. -/
def archQt6 : ArchPackageInfo :=
  { name := "scenario", version := "1.0",
    depends := ["qt6-declarative", "unknown-lib.so", "qt6-base"] }

/-! ## fix_deps.py: report parser (parse_report) and the report format of
check_deps.py main. Lines are modelled as List Char. -/

/-- scripts/fix_deps.py PackageIssues. -/
structure PackageIssues where
  name : List Char
  missing_depends : List (List Char)
  missing_build_depends : List (List Char)
  missing_optional : List (List Char)
deriving DecidableEq

/-- The three current_section values of parse_report. -/
inductive DepSection
  | deps
  | buildDeps
  | optionalDeps
deriving DecidableEq

/-- Parser state: accumulated packages, current package, current section. -/
structure ParseState where
  done : List PackageIssues
  cur : Option PackageIssues
  sec : Option DepSection
deriving DecidableEq

/-- Append one dependency token to the list selected by current_section. -/
def addTok (p : PackageIssues) (s : DepSection) (t : List Char) : PackageIssues :=
  match s with
  | .deps => { p with missing_depends := p.missing_depends ++ [t] }
  | .buildDeps => { p with missing_build_depends := p.missing_build_depends ++ [t] }
  | .optionalDeps => { p with missing_optional := p.missing_optional ++ [t] }

/-- One iteration of the parse_report loop body, applied to the already
rstripped line. -/
def parseLineCore (st : ParseState) (line : List Char) : ParseState :=
  if startsWithL "Package: ".data line then
    { done := st.done ++ st.cur.toList,
      cur := some { name := pyStrip (line.drop 9), missing_depends := [],
                    missing_build_depends := [], missing_optional := [] },
      sec := none }
  else if containsSub "Missing runtime dependencies:".data line then
    { st with sec := some .deps }
  else if containsSub "Missing build dependencies:".data line then
    { st with sec := some .buildDeps }
  else if containsSub "Missing optional dependencies:".data line then
    { st with sec := some .optionalDeps }
  else if startsWithL "- ".data (pyStrip line) && st.cur.isSome && st.sec.isSome then
    match st.cur, st.sec with
    | some p, some s =>
      { st with cur := some (addTok p s (pyStrip ((pyStrip line).drop 2))) }
    | _, _ => st
  else if startsWithL "====".data line then { st with sec := none }
  else st

/-- One iteration of parse_report (the loop rstrips each raw line first). -/
def parseLine (st : ParseState) (rawLine : List Char) : ParseState :=
  parseLineCore st (pyRstrip rawLine)

/-- scripts/fix_deps.py parse_report, over the report file as a line list. -/
def parse_report (ls : List (List Char)) : List PackageIssues :=
  let st := ls.foldl parseLine ⟨[], none, none⟩
  st.done ++ st.cur.toList

/-- One per-package diff block of the report, as printed by the main loop of
scripts/check_deps.py. -/
structure ReportEntry where
  rookName : List Char
  archName : List Char
  archVersion : List Char
  missing_depends : List (List Char)
  missing_build_depends : List (List Char)
  missing_optional : List (List Char)
deriving DecidableEq

/-- Python string comparison (code-point lexicographic), as used by sorted(). -/
def leChars : List Char → List Char → Bool
  | [], _ => true
  | _ :: _, [] => false
  | a :: as, b :: bs =>
    if a.val < b.val then true else if b.val < a.val then false else leChars as bs

/-- Ordered insertion for sortTokens. -/
def insertSorted (a : List Char) : List (List Char) → List (List Char)
  | [] => [a]
  | b :: t => if leChars a b then a :: b :: t else b :: insertSorted a t

/-- Python sorted() on string lists: the ordered permutation under the linear
code-point order (duplicate entries are identical, so stability is moot). -/
def sortTokens : List (List Char) → List (List Char)
  | [] => []
  | a :: t => insertSorted a (sortTokens t)

/-- The repeated-equals horizontal rule printed around each package block. -/
def sepLine : List Char := List.replicate 60 '='

/-- A Package: NAME line. -/
def pkgLine (n : List Char) : List Char := "Package: ".data ++ n

/-- An Arch equivalent: NAME (VERSION) line. -/
def archLine (a v : List Char) : List Char :=
  ("Arch equivalent: ".data ++ a ++ " (".data ++ v) ++ [')']

/-- A four-space-indented dash entry line. -/
def entryLine (t : List Char) : List Char := "    - ".data ++ t

/-- The three fixed section-header lines printed by check_deps.py main. -/
def hdrOf : DepSection → List Char
  | .deps => "  Missing runtime dependencies:".data
  | .buildDeps => "  Missing build dependencies:".data
  | .optionalDeps => "  Missing optional dependencies:".data

/-- One category block: blank line, header, sorted entry lines - or nothing
when the category list is empty (Python truthiness on the list). -/
def catBlock (c : DepSection) (toks : List (List Char)) : List (List Char) :=
  if toks.isEmpty then [] else [[], hdrOf c] ++ (sortTokens toks).map entryLine

/-- Python any([...]) over the three category lists. -/
def hasIssues (r : ReportEntry) : Bool :=
  !r.missing_depends.isEmpty || !r.missing_build_depends.isEmpty ||
    !r.missing_optional.isEmpty

/-- The lines printed for one package by the main loop of check_deps.py
(blank line, rule, Package line, Arch equivalent line, then one block per
non-empty category); packages without issues print nothing. -/
def formatEntry (r : ReportEntry) : List (List Char) :=
  if hasIssues r then
    [[], sepLine, pkgLine r.rookName, archLine r.archName r.archVersion]
      ++ catBlock .deps r.missing_depends
      ++ catBlock .buildDeps r.missing_build_depends
      ++ catBlock .optionalDeps r.missing_optional
  else []

/-- The report text (as lines) produced for a list of diff results. -/
def format_report (rs : List ReportEntry) : List (List Char) :=
  (rs.map formatEntry).flatten

/-! ## Well-formed tokens: names, versions and dependency tokens that are
non-empty words over lowercase letters, digits and - . _ + (the alphabet the
package corpus uses). -/

/-- Characters allowed in names/tokens for the round-trip theorem. -/
def goodChar (c : Char) : Bool :=
  (97 ≤ c.val && c.val ≤ 122) || (48 ≤ c.val && c.val ≤ 57) ||
    c == '-' || c == '.' || c == '_' || c == '+'

/-- Non-empty token over goodChar. -/
def goodTok (l : List Char) : Bool := !l.isEmpty && l.all goodChar

/-- Well-formed report entry: every name field and token is a goodTok. -/
def wfEntry (r : ReportEntry) : Bool :=
  goodTok r.rookName && goodTok r.archName && goodTok r.archVersion &&
    r.missing_depends.all goodTok && r.missing_build_depends.all goodTok &&
    r.missing_optional.all goodTok

/-! ## Folding whole report blocks through the parser -/

/-- Append a whole token list to the list selected by a section. -/
def addAll (q : PackageIssues) (c : DepSection) (toks : List (List Char)) : PackageIssues :=
  match c with
  | .deps => { q with missing_depends := q.missing_depends ++ toks }
  | .buildDeps => { q with missing_build_depends := q.missing_build_depends ++ toks }
  | .optionalDeps => { q with missing_optional := q.missing_optional ++ toks }

/-- The structured record the round trip recovers for one report entry. -/
def issuesOf (r : ReportEntry) : PackageIssues :=
  ⟨r.rookName, sortTokens r.missing_depends, sortTokens r.missing_build_depends,
    sortTokens r.missing_optional⟩

/-- The packages a final parser state yields. -/
def outOf (st : ParseState) : List PackageIssues := st.done ++ st.cur.toList

/-- Demo entry used to witness the round-trip theorem. -/
def demoEntry : ReportEntry :=
  ⟨"pkga".data, "archa".data, "1.0".data, ["zlib".data, "acl".data], [], ["qt6".data]⟩

/-! ## fix_deps.py: the spec patcher (find_section_end, get_existing_deps,
add_deps_to_section) and fix_rook_file's filtering. Content is a List Char;
Python content.split on newline and newline-join are splitOnNl / joinNl. -/

/-- Python content.split on the newline character. -/
def splitOnNl : List Char → List (List Char)
  | [] => [[]]
  | c :: cs =>
    if c = '\n' then [] :: splitOnNl cs
    else
      match splitOnNl cs with
      | r :: rs => (c :: r) :: rs
      | [] => [[c]]

/-- Python newline join. -/
def joinNl : List (List Char) → List Char
  | [] => []
  | [l] => l
  | l :: l2 :: ls => l ++ '\n' :: joinNl (l2 :: ls)

/-- The section-header test of find_section_end: the anchored regex on the
stripped line succeeds exactly when that line is [NAME]. -/
def matchesHeader (name line : List Char) : Bool :=
  pyStrip line == '[' :: (name ++ [']'])

/-- The next-section test: stripped line starts with [ but not with [[. -/
def isBoundary (line : List Char) : Bool :=
  startsWithL ['['] (pyStrip line) && !startsWithL ['[', '['] (pyStrip line)

/-- The scanning loop of find_section_end: first component is section_start
(last header match seen), second is the boundary index when one was hit. -/
def scanSE (name : List Char) : List (List Char) → Nat → Option Nat → Option Nat × Option Nat
  | [], _, st => (st, none)
  | l :: ls, i, st =>
    if matchesHeader name l then scanSE name ls (i + 1) (some i)
    else if st.isSome && isBoundary l then (st, some i)
    else scanSE name ls (i + 1) st

/-- scripts/fix_deps.py find_section_end; none models the (-1, -1, "")
not-found result. -/
def find_section_end (content name : List Char) : Option (Nat × Nat × List Char) :=
  let lines := splitOnNl content
  match scanSE name lines 0 none with
  | (some s, eOpt) =>
    let e := eOpt.getD lines.length
    some (s, e, pyStrip (joinNl ((lines.drop (s + 1)).take (e - (s + 1)))))
  | (none, _) => none

/-- Key extraction for one section line in get_existing_deps: skip blank and
comment lines, require an equals sign, take the text before the first =,
strip whitespace and then surrounding quote characters. -/
def keyOf (line : List Char) : Option (List Char) :=
  let l := pyStrip line
  if !l.isEmpty && !startsWithL ['#'] l && l.contains '=' then
    some (stripP (fun c => c == '"') (pyStrip (l.takeWhile (fun c => c != '='))))
  else none

/-- The keys found in a section body (get_existing_deps splits the stripped
section content on newlines again). -/
def keysOfContent (sc : List Char) : List (List Char) :=
  (splitOnNl sc).filterMap keyOf

/-- scripts/fix_deps.py get_existing_deps (a section that is not found yields
the empty string, hence no keys). -/
def get_existing_deps (content name : List Char) : List (List Char) :=
  match find_section_end content name with
  | some (_, _, sc) => keysOfContent sc
  | none => keysOfContent []

/-- known_versions from add_deps_to_section. -/
def known_versions : List (List Char × List Char) := [
  ("glibc".data, "2.39".data),
  ("gcc".data, "10.0".data),
  ("systemd".data, "255".data),
  ("glib2".data, "2.78".data),
  ("gtk3".data, "3.24".data),
  ("gtk4".data, "4.12".data),
  ("qt6".data, "6.6".data),
  ("python".data, "3.12".data),
  ("perl".data, "5.38".data),
  ("ncurses".data, "6.4".data),
  ("readline".data, "8.2".data),
  ("openssl".data, "3.0".data),
  ("curl".data, "8.0".data),
  ("libxml2".data, "2.12".data),
  ("libxslt".data, "1.1".data),
  ("zlib".data, "1.3".data),
  ("bzip2".data, "1.0".data),
  ("xz".data, "5.4".data),
  ("zstd".data, "1.5".data),
  ("dbus".data, "1.14".data),
  ("polkit".data, "124".data),
  ("wayland".data, "1.22".data),
  ("mesa".data, "24.0".data),
  ("libdrm".data, "2.4".data),
  ("freetype".data, "2.13".data),
  ("fontconfig".data, "2.14".data),
  ("harfbuzz".data, "8.0".data),
  ("cairo".data, "1.18".data),
  ("pango".data, "1.52".data),
  ("libpng".data, "1.6".data),
  ("libjpeg-turbo".data, "3.0".data),
  ("sqlite".data, "3.45".data),
  ("libffi".data, "3.4".data),
  ("expat".data, "2.6".data),
  ("pcre2".data, "10.42".data),
  ("icu".data, "74".data),
  ("libx11".data, "1.8".data),
  ("libxcb".data, "1.16".data),
  ("libxi".data, "1.8".data),
  ("libxext".data, "1.3".data),
  ("libxfixes".data, "6.0".data),
  ("libxrandr".data, "1.5".data),
  ("libxtst".data, "1.2".data),
  ("libxkbcommon".data, "1.6".data),
  ("alsa-lib".data, "1.2".data),
  ("pulseaudio".data, "17.0".data),
  ("pipewire".data, "1.0".data),
  ("ffmpeg".data, "7.0".data),
  ("gstreamer".data, "1.24".data),
  ("libcap".data, "2.69".data),
  ("libsecret".data, "0.21".data),
  ("libgcrypt".data, "1.10".data),
  ("libgpg-error".data, "1.48".data),
  ("json-c".data, "0.17".data),
  ("libevent".data, "2.1".data),
  ("libusb".data, "1.0".data),
  ("libarchive".data, "3.7".data),
  ("attr".data, "2.5".data),
  ("acl".data, "2.3".data),
  ("libinput".data, "1.25".data),
  ("libevdev".data, "1.13".data),
  ("bluez".data, "5.72".data),
  ("cups".data, "2.4".data),
  ("samba".data, "4.20".data),
  ("gettext".data, "0.22".data),
  ("vala".data, "0.56".data),
  ("libsamplerate".data, "0.2".data),
  ("fftw".data, "3.3".data),
  ("pciutils".data, "3.10".data),
  ("librsvg".data, "2.58".data),
  ("gdk-pixbuf2".data, "2.42".data),
  ("gsettings-desktop-schemas".data, "46.0".data),
]

/-- The version chosen for a new dependency line. -/
def verOf (d : List Char) : List Char :=
  (pyDictLookup known_versions d).getD "1.0".data

/-- One generated dependency line: the f-string DEP = ">= VERSION". -/
def mkLine (d : List Char) : List Char :=
  d ++ " = \">= ".data ++ verOf d ++ ['"']

/-- A line counting as existing content for the insertion-point scan:
non-blank after stripping and not a comment. -/
def entryish (l : List Char) : Bool :=
  !(pyStrip l).isEmpty && !startsWithL ['#'] (pyStrip l)

/-- The insert_at loop of add_deps_to_section over the window lines[s+1:e],
carrying the running insertion index. -/
def lastEntryPos : List (List Char) → Nat → Nat → Nat
  | [], _, cur => cur
  | l :: ls, base, cur => lastEntryPos ls (base + 1) (if entryish l then base + 1 else cur)

/-- The final insert_at value for a section spanning (s, e). -/
def insertPos (lines : List (List Char)) (s e : Nat) : Nat :=
  lastEntryPos ((lines.drop (s + 1)).take (e - (s + 1))) (s + 1) (s + 1)

/-- Python list.insert(i, a): insert before index i, clamping to the end. -/
def insertIdxL (a : α) : Nat → List α → List α
  | 0, l => a :: l
  | _ + 1, [] => [a]
  | i + 1, b :: t => b :: insertIdxL a i t

/-- The insertion loop: repeated list.insert at an index that advances by one
per inserted line. -/
def insertAllAt : List (List Char) → Nat → List (List Char) → List (List Char)
  | lines, _, [] => lines
  | lines, i, n :: ns => insertAllAt (insertIdxL n i lines) (i + 1) ns

/-- scripts/fix_deps.py add_deps_to_section. -/
def add_deps_to_section (content name : List Char) (deps : List (List Char)) : List Char :=
  if deps.isEmpty then content
  else
    let existing := get_existing_deps content name
    let new_deps := deps.filter (fun d => !existing.contains d)
    if new_deps.isEmpty then content
    else
      match find_section_end content name with
      | none => content
      | some (s, e, _) =>
        let lines := splitOnNl content
        let new_lines := (sortTokens new_deps).map mkLine
        joinNl (insertAllAt lines (insertPos lines s e) new_lines)

/-- lib_to_pkg from fix_rook_file. -/
def lib_to_pkg : List (List Char × List Char) := [
  ("libasound".data, "alsa-lib".data),
  ("libncursesw".data, "ncurses".data),
  ("libncurses".data, "ncurses".data),
  ("libreadline".data, "readline".data),
  ("libsystemd".data, "systemd".data),
  ("libudev".data, "systemd".data),
  ("libxml2".data, "libxml2".data),
  ("libxslt".data, "libxslt".data),
  ("libglib-2.0".data, "glib2".data),
  ("libgio-2.0".data, "glib2".data),
  ("libgobject-2.0".data, "glib2".data),
  ("libpng".data, "libpng".data),
  ("libpng16".data, "libpng".data),
  ("libjpeg".data, "libjpeg-turbo".data),
  ("libfreetype".data, "freetype".data),
  ("libfontconfig".data, "fontconfig".data),
  ("libharfbuzz".data, "harfbuzz".data),
  ("libcairo".data, "cairo".data),
  ("libpango-1.0".data, "pango".data),
  ("libgtk-3".data, "gtk3".data),
  ("libgtk-4".data, "gtk4".data),
  ("libdbus-1".data, "dbus".data),
  ("libcurl".data, "curl".data),
  ("libssl".data, "openssl".data),
  ("libcrypto".data, "openssl".data),
  ("libz".data, "zlib".data),
  ("libbz2".data, "bzip2".data),
  ("liblzma".data, "xz".data),
  ("libzstd".data, "zstd".data),
  ("libffi".data, "libffi".data),
  ("libexpat".data, "expat".data),
  ("libpcre2-8".data, "pcre2".data),
  ("libsqlite3".data, "sqlite".data),
  ("libX11".data, "libx11".data),
  ("libxcb".data, "libxcb".data),
  ("libwayland-client".data, "wayland".data),
  ("libpulse".data, "pulseaudio".data),
  ("libpipewire-0.3".data, "pipewire".data),
]

/-- The second skip condition of filter_deps: d is a lib name whose package
is already declared somewhere. -/
def aliasHit (all_existing : List (List Char)) (d : List Char) : Bool :=
  match pyDictLookup lib_to_pkg d with
  | some p => all_existing.contains p
  | none => false

/-- scripts/fix_deps.py filter_deps (local to fix_rook_file). -/
def filter_deps (all_existing : List (List Char)) (pkg_name : List Char)
    (deps : List (List Char)) : List (List Char) :=
  deps.filter (fun d =>
    !(d == pkg_name) && !aliasHit all_existing d && !(all_existing.contains d))

/-- The union of existing keys over the three dependency sections, as
computed by fix_rook_file. -/
def allExisting (content : List Char) : List (List Char) :=
  get_existing_deps content "depends".data ++
    get_existing_deps content "build_depends".data ++
    get_existing_deps content "optional_depends".data

/-- The three filtered lists fix_rook_file passes to the patcher. -/
def filteredDeps (content : List Char) (pkg : PackageIssues) :
    List (List Char) × List (List Char) × List (List Char) :=
  let all := allExisting content
  (filter_deps all pkg.name pkg.missing_depends,
   filter_deps all pkg.name pkg.missing_build_depends,
   filter_deps all pkg.name pkg.missing_optional)

/-- The content pipeline of fix_rook_file: filter the three missing lists
against the file, then patch the three sections in order. -/
def fixContent (content : List Char) (pkg : PackageIssues) : List Char :=
  let f := filteredDeps content pkg
  let c1 := if f.1.isEmpty then content else add_deps_to_section content "depends".data f.1
  let c2 := if f.2.1.isEmpty then c1 else add_deps_to_section c1 "build_depends".data f.2.1
  if f.2.2.isEmpty then c2 else add_deps_to_section c2 "optional_depends".data f.2.2

def wContent : List Char :=
  "[depends]\nzlib = \">= 1.3\"\n[build_depends]\n[optional_depends]".data

def wPkg : PackageIssues :=
  ⟨"foo".data, ["zlib".data, "openssl".data], ["zlib".data], []⟩

/-! ## Lemmas about the strip/takeWhile primitives -/

theorem mem_dropWhileP (p : Char → Bool) (a : Char) :
    ∀ l : List Char, a ∈ l.dropWhile p → a ∈ l := by
  intro l h
  induction l with
  | nil => simp [List.dropWhile] at h
  | cons b t ih =>
    by_cases hb : p b = true
    · simp only [List.dropWhile_cons, hb, if_true] at h
      exact List.mem_cons_of_mem _ (ih h)
    · rw [Bool.not_eq_true] at hb
      simp only [List.dropWhile_cons, hb, Bool.false_eq_true, if_false] at h
      exact h

theorem mem_stripP (p : Char → Bool) (a : Char) (l : List Char)
    (h : a ∈ stripP p l) : a ∈ l := by
  unfold stripP lstripP rstripP at h
  have h1 := mem_dropWhileP p a _ h
  rw [List.mem_reverse] at h1
  have h2 := mem_dropWhileP p a _ h1
  rwa [List.mem_reverse] at h2

theorem pred_of_mem_takeWhile (p : Char → Bool) (a : Char) :
    ∀ l : List Char, a ∈ l.takeWhile p → p a = true := by
  intro l h
  induction l with
  | nil => simp [List.takeWhile] at h
  | cons b t ih =>
    cases hb : p b with
    | true =>
      simp only [List.takeWhile, hb] at h
      rcases List.mem_cons.mp h with rfl | hm
      · exact hb
      · exact ih hm
    | false => simp [List.takeWhile, hb] at h

theorem takeWhile_all_eq_self (p : Char → Bool) :
    ∀ l : List Char, (∀ c ∈ l, p c = true) → l.takeWhile p = l := by
  intro l h
  induction l with
  | nil => rfl
  | cons b t ih =>
    have hb : p b = true := h b (List.mem_cons_self _ _)
    simp only [List.takeWhile, hb]
    rw [ih fun c hc => h c (List.mem_cons_of_mem _ hc)]

theorem dropWhile_eq_self_of_head (p : Char → Bool) (l : List Char)
    (h : ∀ c, l.head? = some c → p c = false) : l.dropWhile p = l := by
  cases l with
  | nil => rfl
  | cons b t =>
    have hb : p b = false := h b rfl
    simp [List.dropWhile_cons, hb]

theorem head?_of_dropWhile (p : Char → Bool) :
    ∀ (l : List Char) (c : Char), (l.dropWhile p).head? = some c → p c = false := by
  intro l c h
  induction l with
  | nil => simp [List.dropWhile] at h
  | cons b t ih =>
    cases hb : p b with
    | true => simp only [List.dropWhile_cons, hb, if_true] at h; exact ih h
    | false =>
      simp only [List.dropWhile_cons, hb, Bool.false_eq_true, if_false, List.head?] at h
      cases h
      exact hb

theorem stripP_eq_self (p : Char → Bool) (l : List Char)
    (hh : ∀ c, l.head? = some c → p c = false)
    (hl : ∀ c, l.getLast? = some c → p c = false) : stripP p l = l := by
  have hr : rstripP p l = l := by
    unfold rstripP
    rw [dropWhile_eq_self_of_head p l.reverse
      (fun c hc => hl c (by rwa [List.head?_reverse] at hc))]
    exact List.reverse_reverse l
  unfold stripP lstripP
  rw [hr]
  exact dropWhile_eq_self_of_head p l hh

theorem head?_of_take (l : List Char) (n : Nat) (c : Char)
    (h : (l.take n).head? = some c) : l.head? = some c := by
  cases l with
  | nil => simp at h
  | cons b t =>
    cases n with
    | zero => simp at h
    | succ m => simpa using h

/-! ## Idempotence analysis of normalize_dep_name (claim C2) -/

theorem head?_stripVersionConstraintL (l : List Char) (c : Char)
    (h : (stripVersionConstraintL l).head? = some c) : isPySpaceChar c = false := by
  unfold stripVersionConstraintL pyStrip stripP lstripP at h
  exact head?_of_dropWhile _ _ _ h

theorem mem_stripVersionConstraintL (l : List Char) (a : Char)
    (h : a ∈ stripVersionConstraintL l) : isConstraintChar a = false := by
  unfold stripVersionConstraintL pyStrip at h
  have h1 := mem_stripP _ _ _ h
  have h2 := pred_of_mem_takeWhile _ _ _ h1
  simpa using h2

theorem mem_normalizeL (l : List Char) (a : Char) (h : a ∈ normalizeL l) :
    a ∈ stripVersionConstraintL l := by
  unfold normalizeL at h
  by_cases hc : endsWithL ['.', 's', 'o'] (stripVersionConstraintL l) = true
  · simp only [hc, if_true] at h
    exact List.take_subset _ _ h
  · rw [Bool.not_eq_true] at hc
    simp only [hc, Bool.false_eq_true, if_false] at h
    exact h

theorem head?_normalizeL (l : List Char) (c : Char)
    (h : (normalizeL l).head? = some c) : isPySpaceChar c = false := by
  unfold normalizeL at h
  by_cases hc : endsWithL ['.', 's', 'o'] (stripVersionConstraintL l) = true
  · simp only [hc, if_true] at h
    exact head?_stripVersionConstraintL l c (head?_of_take _ _ _ h)
  · rw [Bool.not_eq_true] at hc
    simp only [hc, Bool.false_eq_true, if_false] at h
    exact head?_stripVersionConstraintL l c h

theorem normalizeL_fixed (l : List Char)
    (h1 : endsWithL ['.', 's', 'o'] (normalizeL l) = false)
    (h2 : Option.all (fun c => !isPySpaceChar c) (normalizeL l).getLast? = true) :
    normalizeL (normalizeL l) = normalizeL l := by
  have hlast : ∀ c, (normalizeL l).getLast? = some c → isPySpaceChar c = false := by
    intro c hc
    rw [hc] at h2
    simpa using h2
  have htw : (normalizeL l).takeWhile (fun c => !isConstraintChar c) = normalizeL l := by
    refine takeWhile_all_eq_self _ _ fun c hc => ?_
    have := mem_stripVersionConstraintL l c (mem_normalizeL l c hc)
    simp [this]
  have hstrip : stripVersionConstraintL (normalizeL l) = normalizeL l := by
    unfold stripVersionConstraintL
    rw [htw]
    exact stripP_eq_self _ _ (head?_normalizeL l) hlast
  conv_lhs => rw [normalizeL]
  simp only [hstrip, h1, Bool.false_eq_true, if_false]

/-- C2 (counterexample): the normalizer is not idempotent on every token; on
".so.so" one pass yields ".so" and a second pass yields "". -/
theorem normalize_dep_name_not_idempotent :
    normalize_dep_name (normalize_dep_name ".so.so") ≠ normalize_dep_name ".so.so" := by
  decide

/-- C2 (amended): the normalizer is idempotent on every token whose
normalized form neither ends in ".so" nor ends in a whitespace character
(one normalization pass can expose such an ending, which is the only source
of non-idempotence). -/
theorem normalize_dep_name_idempotent (t : String)
    (h1 : endsWithL ['.', 's', 'o'] (normalizeL t.data) = false)
    (h2 : Option.all (fun c => !isPySpaceChar c) (normalizeL t.data).getLast? = true) :
    normalize_dep_name (normalize_dep_name t) = normalize_dep_name t := by
  show (⟨normalizeL (normalizeL t.data)⟩ : String) = ⟨normalizeL t.data⟩
  rw [normalizeL_fixed t.data h1 h2]

/-- Witness for the amended C2 theorem at the spec's example token. -/
theorem normalize_dep_name_idempotent_witness :
    endsWithL ['.', 's', 'o'] (normalizeL "libfoo>=1.2".data) = false ∧
    normalize_dep_name (normalize_dep_name "libfoo>=1.2") = normalize_dep_name "libfoo>=1.2" :=
  ⟨by decide, normalize_dep_name_idempotent "libfoo>=1.2" (by decide) (by decide)⟩

/-! ## Claims about the diff engine and the mapper (C1, C6, C7, C8) -/

theorem mem_containsL (l : List String) (a : String) : l.contains a = true ↔ a ∈ l := by
  simp [List.contains, List.elem_iff]

/-- C1 (counterexample): a name declared only in the local build mapping is
still reported in missing-optional, because the optional check consults only
the optional and required mappings. -/
theorem build_dep_reported_missing_optional :
    "mylib" ∈ rookBuildOnly.build_depends.map Prod.fst ∧
    "mylib" ∈ (compare_dependencies rookBuildOnly archOptMylib).missing_optional :=
  ⟨by decide, by decide⟩

/-- C1 (amended): a dependency name present in the local required (depends)
mapping is never reported missing in any category, and a name present in
either the required or the build mapping is never reported in
missing-required or missing-build; a name present only in the build mapping
can still surface in missing-optional. -/
theorem missing_lists_respect_declared (rook : RookPackageInfo) (arch : ArchPackageInfo)
    (d : String)
    (h : d ∈ rook.depends.map Prod.fst ∨ d ∈ rook.build_depends.map Prod.fst) :
    (d ∉ (compare_dependencies rook arch).missing_depends ∧
      d ∉ (compare_dependencies rook arch).missing_build_depends) ∧
    (d ∈ rook.depends.map Prod.fst →
      d ∉ (compare_dependencies rook arch).missing_optional) := by
  have key : ∀ (L1 L2 m : List String) (x : String),
      x ∈ m.filter (fun y => !(L1.contains y) && !(L2.contains y)) → x ∉ L1 ∧ x ∉ L2 := by
    intro L1 L2 m x hx
    have hp := (List.mem_filter.mp hx).2
    simp only [Bool.and_eq_true, Bool.not_eq_true'] at hp
    constructor
    · intro hmem
      rw [← mem_containsL] at hmem
      exact Bool.noConfusion (hp.1.symm.trans hmem)
    · intro hmem
      rw [← mem_containsL] at hmem
      exact Bool.noConfusion (hp.2.symm.trans hmem)
  refine ⟨⟨fun hmem => ?_, fun hmem => ?_⟩, fun hdep hmem => ?_⟩
  · have hm2 : d ∈ (mappedSet arch.depends).filter
        (fun y => !((rook.depends.map Prod.fst).contains y) &&
          !((rook.build_depends.map Prod.fst).contains y)) := hmem
    rcases h with hd | hb
    · exact (key _ _ _ _ hm2).1 hd
    · exact (key _ _ _ _ hm2).2 hb
  · have hm2 : d ∈ (mappedSet arch.makedepends).filter
        (fun y => !((rook.build_depends.map Prod.fst).contains y) &&
          !((rook.depends.map Prod.fst).contains y)) := hmem
    rcases h with hd | hb
    · exact (key _ _ _ _ hm2).2 hd
    · exact (key _ _ _ _ hm2).1 hb
  · have hm2 : d ∈ (mappedSet arch.optdepends).filter
        (fun y => !((rook.optional_depends.map Prod.fst).contains y) &&
          !((rook.depends.map Prod.fst).contains y)) := hmem
    exact (key _ _ _ _ hm2).2 hdep

/-- Witness for the amended C1 theorem: qt6, declared in local depends, is in
no missing list of the end-to-end scenario. -/
theorem missing_lists_respect_declared_witness :
    "qt6" ∉ (compare_dependencies rookQt6 archQt6).missing_depends :=
  ((missing_lists_respect_declared rookQt6 archQt6 "qt6" (Or.inl (by decide))).1).1

/-- C6: the diff reports no missing required dependency when every mapped
required candidate is already declared in local depends or build_depends. -/
theorem no_missing_required_when_covered (rook : RookPackageInfo) (arch : ArchPackageInfo)
    (h : ∀ d ∈ mappedSet arch.depends,
      d ∈ rook.depends.map Prod.fst ∨ d ∈ rook.build_depends.map Prod.fst) :
    (compare_dependencies rook arch).missing_depends = [] := by
  show (mappedSet arch.depends).filter
      (fun y => !((rook.depends.map Prod.fst).contains y) &&
        !((rook.build_depends.map Prod.fst).contains y)) = []
  rw [List.filter_eq_nil_iff]
  intro a ha hq
  rcases h a ha with hd | hb
  · rw [← mem_containsL] at hd
    rw [hd] at hq
    simp at hq
  · rw [← mem_containsL] at hb
    rw [hb] at hq
    simp at hq

/-- Witness for C6 at the spec scenario: depends only on qt6 locally, foreign
required list maps to qt6 twice plus an unmapped shared library, which
contributes no candidate at all. -/
theorem no_missing_required_when_covered_witness :
    (compare_dependencies rookQt6 archQt6).missing_depends = [] ∧
    map_arch_to_rookery "unknown-lib.so" = none :=
  ⟨no_missing_required_when_covered rookQt6 archQt6 (by decide), by decide⟩

/-- C7: the four documented mapper results, together with the table facts
that pin down the branch taken: libpng16.so resolves through the
shared-library table (libpng16 has no explicit entry), python-pytest is in
the ignore set, and foo-devel falls back to the stripped remainder because
foo has no explicit entry. -/
theorem mapper_static_table_results :
    map_arch_to_rookery "libpng16.so" = some "libpng" ∧
    map_arch_to_rookery "qt6-declarative" = some "qt6" ∧
    map_arch_to_rookery "python-pytest" = none ∧
    map_arch_to_rookery "foo-devel" = some "foo" ∧
    pyDictContains ARCH_TO_ROOKERY "libpng16" = false ∧
    pyDictLookup lib_mappings "libpng16" = some (some "libpng") ∧
    IGNORE_PACKAGES.contains "python-pytest" = true ∧
    pyDictContains ARCH_TO_ROOKERY "foo" = false :=
  ⟨by decide, by decide, by decide, by decide, by decide, by decide, by decide, by decide⟩

/-- C8: the resolution asymmetry. The explicit table is consulted with the
normalized name; the shared-library branch is entered exactly when the
original token ends in ".so", and an unmatched shared-library name resolves
to ignore (the join collapses a missing lib_mappings entry to none). -/
theorem mapper_so_asymmetry :
    (∀ (t : String) (v : Option String),
      IGNORE_PACKAGES.contains (normalize_dep_name t) = false →
      pyDictLookup ARCH_TO_ROOKERY (normalize_dep_name t) = some v →
      map_arch_to_rookery t = v) ∧
    (∀ t : String,
      IGNORE_PACKAGES.contains (normalize_dep_name t) = false →
      pyDictLookup ARCH_TO_ROOKERY (normalize_dep_name t) = none →
      endsWithL ['.', 's', 'o'] t.data = true →
      map_arch_to_rookery t = (pyDictLookup lib_mappings (normalize_dep_name t)).join) := by
  constructor
  · intro t v hIgn hLook
    simp only [map_arch_to_rookery, hIgn, Bool.false_eq_true, if_false, hLook]
  · intro t hIgn hLook hSo
    simp only [map_arch_to_rookery, hIgn, Bool.false_eq_true, if_false, hLook, hSo, if_true]
    cases pyDictLookup lib_mappings (normalize_dep_name t) <;> rfl

/-- Witness for C8: the token libavcodec.so, whose explicit-table key
"libavcodec.so" (value: ignore) ends in ".so", nevertheless resolves through
the shared-library branch to ffmpeg, because the explicit lookup uses the
normalized name libavcodec; and an unknown shared library resolves to none. -/
theorem mapper_so_asymmetry_witness :
    map_arch_to_rookery "libavcodec.so" = some "ffmpeg" ∧
    pyDictLookup ARCH_TO_ROOKERY "libavcodec.so" = some none ∧
    map_arch_to_rookery "unknown-lib.so" = none := by
  refine ⟨?_, by decide, ?_⟩
  · rw [mapper_so_asymmetry.2 "libavcodec.so" (by decide) (by decide) (by decide)]
    decide
  · rw [mapper_so_asymmetry.2 "unknown-lib.so" (by decide) (by decide) (by decide)]
    decide

/-! ## Character-class and per-line lemmas for the report round trip -/

theorem goodChar_not_space (c : Char) (h : goodChar c = true) : isPySpaceChar c = false := by
  cases hsp : isPySpaceChar c with
  | false => rfl
  | true =>
    exfalso
    simp only [isPySpaceChar, Bool.or_eq_true, beq_iff_eq] at hsp
    rcases hsp with ((((h1 | h1) | h1) | h1) | h1) | h1 <;> subst h1 <;>
      exact absurd h (by decide)

theorem goodChar_ne (c x : Char) (hg : goodChar c = true) (hx : goodChar x = false) :
    c ≠ x := by
  intro e
  subst e
  rw [hg] at hx
  exact Bool.noConfusion hx

theorem mem_of_headq (l : List Char) (c : Char) (h : l.head? = some c) : c ∈ l := by
  cases l with
  | nil => simp at h
  | cons a t =>
    injection h with h2
    rw [← h2]
    exact List.mem_cons_self _ _

theorem mem_of_getLastq (l : List Char) (c : Char) (h : l.getLast? = some c) : c ∈ l := by
  rw [← List.head?_reverse] at h
  exact List.mem_reverse.mp (mem_of_headq _ _ h)

theorem goodTok_ne_nil (t : List Char) (h : goodTok t = true) : t ≠ [] := by
  intro e
  subst e
  exact Bool.noConfusion h

theorem goodTok_all (t : List Char) (h : goodTok t = true) :
    ∀ c ∈ t, goodChar c = true := by
  have := (Bool.and_eq_true _ _).mp h
  exact fun c hc => List.all_eq_true.mp this.2 c hc

theorem goodTok_pyStrip (t : List Char) (h : goodTok t = true) : pyStrip t = t := by
  refine stripP_eq_self _ _ (fun c hc => ?_) (fun c hc => ?_)
  · exact goodChar_not_space c (goodTok_all t h c (mem_of_headq _ _ hc))
  · exact goodChar_not_space c (goodTok_all t h c (mem_of_getLastq _ _ hc))

theorem pyRstrip_append_good (l t : List Char) (ht : goodTok t = true) :
    pyRstrip (l ++ t) = l ++ t := by
  have hnil : t ≠ [] := goodTok_ne_nil t ht
  unfold pyRstrip rstripP
  rw [List.reverse_append]
  cases hrev : t.reverse with
  | nil => exact absurd (by rwa [List.reverse_eq_nil_iff] at hrev) hnil
  | cons c r =>
    have hc : c ∈ t := by
      rw [← List.mem_reverse, hrev]
      exact List.mem_cons_self _ _
    have hws := goodChar_not_space c (goodTok_all t ht c hc)
    rw [List.cons_append, List.dropWhile_cons_of_neg (by simp [hws]), ← List.cons_append,
      ← hrev, ← List.reverse_append, List.reverse_reverse]

theorem pyRstrip_concat_nonws (l : List Char) (c : Char) (h : isPySpaceChar c = false) :
    pyRstrip (l ++ [c]) = l ++ [c] := by
  unfold pyRstrip rstripP
  rw [List.reverse_append]
  show ((c :: l.reverse).dropWhile _).reverse = _
  rw [List.dropWhile_cons_of_neg (by simp [h])]
  show ((List.reverse [c]) ++ l.reverse).reverse = _
  rw [← List.reverse_append, List.reverse_reverse]

theorem startsWith_append_self : ∀ p t : List Char, startsWithL p (p ++ t) = true := by
  intro p t
  induction p with
  | nil => rfl
  | cons a as ih => simp [startsWithL, ih]

theorem mem_of_startsWithL : ∀ (n h : List Char) (c : Char),
    startsWithL n h = true → c ∈ n → c ∈ h := by
  intro n
  induction n with
  | nil =>
    intro h c _ hc
    simp at hc
  | cons a as ih =>
    intro h c hs hc
    cases h with
    | nil => exact Bool.noConfusion hs
    | cons b bs =>
      simp only [startsWithL, Bool.and_eq_true, beq_iff_eq] at hs
      rcases List.mem_cons.mp hc with rfl | hm
      · rw [hs.1]
        exact List.mem_cons_self _ _
      · exact List.mem_cons_of_mem _ (ih bs c hs.2 hm)

theorem mem_of_containsSub : ∀ (h n : List Char) (c : Char),
    containsSub n h = true → c ∈ n → c ∈ h := by
  intro h
  induction h with
  | nil =>
    intro n c hcs hc
    cases n with
    | nil => simp at hc
    | cons a as => exact Bool.noConfusion hcs
  | cons b bs ih =>
    intro n c hcs hc
    unfold containsSub at hcs
    simp only [Bool.or_eq_true] at hcs
    rcases hcs with hs | ht
    · exact mem_of_startsWithL n _ c hs hc
    · exact List.mem_cons_of_mem _ (ih n c ht hc)

theorem containsSub_eq_false (n h : List Char) (x : Char) (hx : x ∈ n)
    (hm : ∀ c ∈ h, c ≠ x) : containsSub n h = false := by
  cases hc : containsSub n h with
  | false => rfl
  | true => exact absurd rfl (hm x (mem_of_containsSub h n x hc hx))

theorem no_M_archLine (a v : List Char) (ha : goodTok a = true) (hv : goodTok v = true) :
    ∀ c ∈ archLine a v, c ≠ 'M' := by
  intro c hc
  have hM : goodChar 'M' = false := by decide
  have t1 : ∀ x ∈ "Arch equivalent: ".data, x ≠ 'M' := by decide
  have t2 : ∀ x ∈ " (".data, x ≠ 'M' := by decide
  have t3 : ∀ x ∈ [')'], x ≠ 'M' := by decide
  unfold archLine at hc
  rcases List.mem_append.mp hc with h1 | h2
  · rcases List.mem_append.mp h1 with h3 | hv2
    · rcases List.mem_append.mp h3 with h4 | hsp
      · rcases List.mem_append.mp h4 with ht | ha2
        · exact t1 c ht
        · exact goodChar_ne _ _ (goodTok_all a ha c ha2) hM
      · exact t2 c hsp
    · exact goodChar_ne _ _ (goodTok_all v hv c hv2) hM
  · exact t3 c h2

theorem no_M_entryLine (t : List Char) (ht : goodTok t = true) :
    ∀ c ∈ entryLine t, c ≠ 'M' := by
  intro c hc
  have t1 : ∀ x ∈ "    - ".data, x ≠ 'M' := by decide
  unfold entryLine at hc
  rcases List.mem_append.mp hc with h1 | h2
  · exact t1 c h1
  · exact goodChar_ne c 'M' (goodTok_all t ht c h2) (by decide)

/-! ## The behaviour of parseLine on each line shape -/

theorem parseLine_blank (st : ParseState) : parseLine st [] = st := rfl

theorem parseLine_sep (st : ParseState) : parseLine st sepLine = { st with sec := none } := rfl

theorem parseLine_hdr (st : ParseState) (c : DepSection) :
    parseLine st (hdrOf c) = { st with sec := some c } := by
  cases c <;> rfl

theorem parseLine_pkg (st : ParseState) (n : List Char) (hn : goodTok n = true) :
    parseLine st (pkgLine n) =
      ⟨st.done ++ st.cur.toList, some ⟨n, [], [], []⟩, none⟩ := by
  unfold parseLine pkgLine
  rw [pyRstrip_append_good "Package: ".data n hn]
  unfold parseLineCore
  rw [startsWith_append_self "Package: ".data n]
  have h9 : ("Package: ".data ++ n).drop 9 = n := by
    rw [show (9 : Nat) = ("Package: ".data).length from rfl]
    exact List.drop_left _ _
  simp only [if_true, h9, goodTok_pyStrip n hn]

theorem parseLine_arch (st : ParseState) (a v : List Char)
    (ha : goodTok a = true) (hv : goodTok v = true) :
    parseLine st (archLine a v) = st := by
  have hr : pyRstrip (archLine a v) = archLine a v :=
    pyRstrip_concat_nonws ("Arch equivalent: ".data ++ a ++ " (".data ++ v) ')' (by decide)
  have hM : ∀ ph : List Char, 'M' ∈ ph → containsSub ph (archLine a v) = false :=
    fun ph hph => containsSub_eq_false ph _ 'M' hph (no_M_archLine a v ha hv)
  have c2 := hM "Missing runtime dependencies:".data (by decide)
  have c3 := hM "Missing build dependencies:".data (by decide)
  have c4 := hM "Missing optional dependencies:".data (by decide)
  have hps : pyStrip (archLine a v) = archLine a v := by
    unfold pyStrip stripP
    show lstripP _ (pyRstrip _) = _
    rw [hr]
    unfold archLine lstripP
    rfl
  have c1 : startsWithL "Package: ".data (archLine a v) = false := by
    unfold archLine
    rfl
  have c5 : startsWithL "- ".data (pyStrip (archLine a v)) = false := by
    rw [hps]
    unfold archLine
    rfl
  have c6 : startsWithL "====".data (archLine a v) = false := by
    unfold archLine
    rfl
  unfold parseLine
  rw [hr]
  unfold parseLineCore
  simp only [c1, c2, c3, c4, c5, c6, Bool.false_eq_true, if_false, Bool.false_and]

theorem parseLine_entry (done : List PackageIssues) (p : PackageIssues) (s : DepSection)
    (t : List Char) (ht : goodTok t = true) :
    parseLine ⟨done, some p, some s⟩ (entryLine t) =
      ⟨done, some (addTok p s t), some s⟩ := by
  have hr : pyRstrip (entryLine t) = entryLine t :=
    pyRstrip_append_good "    - ".data t ht
  have hM : ∀ ph : List Char, 'M' ∈ ph → containsSub ph (entryLine t) = false :=
    fun ph hph => containsSub_eq_false ph _ 'M' hph (no_M_entryLine t ht)
  have c2 := hM "Missing runtime dependencies:".data (by decide)
  have c3 := hM "Missing build dependencies:".data (by decide)
  have c4 := hM "Missing optional dependencies:".data (by decide)
  have hps : pyStrip (entryLine t) = '-' :: ' ' :: t := by
    unfold pyStrip stripP
    show lstripP _ (pyRstrip _) = _
    rw [hr]
    unfold entryLine lstripP
    rfl
  have c1 : startsWithL "Package: ".data (entryLine t) = false := by
    unfold entryLine
    rfl
  have c5 : startsWithL "- ".data (pyStrip (entryLine t)) = true := by
    rw [hps]
    rfl
  unfold parseLine
  rw [hr]
  unfold parseLineCore
  simp only [c1, c2, c3, c4, c5, Bool.false_eq_true, if_false, Bool.true_and]
  have hdrop : (pyStrip (entryLine t)).drop 2 = t := by
    rw [hps]
    rfl
  simp only [hdrop, goodTok_pyStrip t ht]
  rfl

theorem addAll_nil (q : PackageIssues) (c : DepSection) : addAll q c [] = q := by
  cases c <;> simp [addAll]

theorem addAll_addTok (q : PackageIssues) (c : DepSection) (t : List Char)
    (ts : List (List Char)) : addAll (addTok q c t) c ts = addAll q c (t :: ts) := by
  cases c <;> simp [addAll, addTok]

theorem mem_insertSorted (a x : List Char) :
    ∀ l, x ∈ insertSorted a l ↔ x = a ∨ x ∈ l := by
  intro l
  induction l with
  | nil => simp [insertSorted]
  | cons b t ih =>
    unfold insertSorted
    by_cases hle : leChars a b = true
    · simp [hle, List.mem_cons]
    · rw [Bool.not_eq_true] at hle
      simp only [hle, Bool.false_eq_true, if_false, List.mem_cons, ih]
      tauto

theorem mem_sortTokens (x : List Char) : ∀ l, x ∈ sortTokens l ↔ x ∈ l := by
  intro l
  induction l with
  | nil => simp [sortTokens]
  | cons a t ih =>
    simp [sortTokens, mem_insertSorted, ih, List.mem_cons]

theorem parse_entries (done : List PackageIssues) (p : PackageIssues) (s : DepSection)
    (toks : List (List Char)) (h : ∀ t ∈ toks, goodTok t = true) :
    (toks.map entryLine).foldl parseLine ⟨done, some p, some s⟩ =
      ⟨done, some (addAll p s toks), some s⟩ := by
  induction toks generalizing p with
  | nil => simp [addAll_nil]
  | cons t ts ih =>
    simp only [List.map_cons, List.foldl_cons]
    rw [parseLine_entry done p s t (h t (List.mem_cons_self _ _)),
      ih (addTok p s t) (fun x hx => h x (List.mem_cons_of_mem _ hx)),
      addAll_addTok]

theorem parse_catBlock (done : List PackageIssues) (p : PackageIssues)
    (sec0 : Option DepSection) (c : DepSection) (toks : List (List Char))
    (h : ∀ t ∈ toks, goodTok t = true) :
    (catBlock c toks).foldl parseLine ⟨done, some p, sec0⟩ =
      ⟨done, some (addAll p c (sortTokens toks)),
        if toks.isEmpty then sec0 else some c⟩ := by
  cases toks with
  | nil => simp [catBlock, sortTokens, addAll_nil]
  | cons t ts =>
    simp only [catBlock, List.isEmpty_cons, Bool.false_eq_true, if_false,
      List.cons_append, List.nil_append, List.foldl_cons]
    rw [parseLine_blank, parseLine_hdr]
    have h2 : ∀ x ∈ sortTokens (t :: ts), goodTok x = true :=
      fun x hx => h x ((mem_sortTokens x _).mp hx)
    exact parse_entries done p c (sortTokens (t :: ts)) h2

theorem wfEntry_parts (r : ReportEntry) (h : wfEntry r = true) :
    goodTok r.rookName = true ∧ goodTok r.archName = true ∧ goodTok r.archVersion = true ∧
    (∀ t ∈ r.missing_depends, goodTok t = true) ∧
    (∀ t ∈ r.missing_build_depends, goodTok t = true) ∧
    (∀ t ∈ r.missing_optional, goodTok t = true) := by
  simp only [wfEntry, Bool.and_eq_true, List.all_eq_true] at h
  exact ⟨h.1.1.1.1.1, h.1.1.1.1.2, h.1.1.1.2, h.1.1.2, h.1.2, h.2⟩

theorem parse_formatEntry (st : ParseState) (r : ReportEntry)
    (hwf : wfEntry r = true) (hiss : hasIssues r = true) :
    ∃ sec2, (formatEntry r).foldl parseLine st =
      ⟨st.done ++ st.cur.toList, some (issuesOf r), sec2⟩ := by
  obtain ⟨h1, h2, h3, h4, h5, h6⟩ := wfEntry_parts r hwf
  have hfold : (formatEntry r).foldl parseLine st =
      ⟨st.done ++ st.cur.toList, some (issuesOf r),
        if r.missing_optional.isEmpty then
          (if r.missing_build_depends.isEmpty then
            (if r.missing_depends.isEmpty then none else some DepSection.deps)
          else some DepSection.buildDeps)
        else some DepSection.optionalDeps⟩ := by
    unfold formatEntry
    rw [hiss]
    simp only [if_true, List.cons_append, List.nil_append, List.foldl_cons, List.foldl_append]
    rw [parseLine_blank, parseLine_sep, parseLine_pkg _ _ h1, parseLine_arch _ _ _ h2 h3]
    rw [parse_catBlock _ _ _ _ _ h4, parse_catBlock _ _ _ _ _ h5, parse_catBlock _ _ _ _ _ h6]
    simp only [addAll, issuesOf, List.nil_append]
  exact ⟨_, hfold⟩

theorem parse_format_blocks : ∀ (rs : List ReportEntry) (st : ParseState),
    (∀ r ∈ rs, wfEntry r = true ∧ hasIssues r = true) →
    outOf ((format_report rs).foldl parseLine st) = outOf st ++ rs.map issuesOf := by
  intro rs
  induction rs with
  | nil =>
    intro st h
    simp [format_report, outOf]
  | cons r rs ih =>
    intro st h
    have hr := h r (List.mem_cons_self _ _)
    obtain ⟨sec2, heq⟩ := parse_formatEntry st r hr.1 hr.2
    have hsplit : format_report (r :: rs) = formatEntry r ++ format_report rs := by
      simp [format_report]
    rw [hsplit, List.foldl_append, heq,
      ih _ (fun x hx => h x (List.mem_cons_of_mem _ hx))]
    simp [outOf, Option.toList]

/-- C3 (amended): the report round trip. For every list of diff results in
which each record has at least one non-empty category (records without
issues print nothing) and whose names, versions and tokens are non-empty
words over the package-name alphabet (lowercase letters, digits, - . _ +),
parsing the formatted report recovers exactly the per-package records, each
category compared as a set. -/
theorem report_roundtrip (rs : List ReportEntry)
    (h : ∀ r ∈ rs, wfEntry r = true ∧ hasIssues r = true) :
    List.Forall₂ (fun p r =>
      p.name = r.rookName ∧
      (∀ t, t ∈ p.missing_depends ↔ t ∈ r.missing_depends) ∧
      (∀ t, t ∈ p.missing_build_depends ↔ t ∈ r.missing_build_depends) ∧
      (∀ t, t ∈ p.missing_optional ↔ t ∈ r.missing_optional))
      (parse_report (format_report rs)) rs := by
  have hp : parse_report (format_report rs) = rs.map issuesOf := by
    unfold parse_report
    have := parse_format_blocks rs ⟨[], none, none⟩ h
    simpa [outOf] using this
  rw [hp]
  clear h hp
  induction rs with
  | nil => exact List.Forall₂.nil
  | cons r rs ih =>
    exact List.Forall₂.cons
      ⟨rfl, fun t => mem_sortTokens t _, fun t => mem_sortTokens t _,
        fun t => mem_sortTokens t _⟩ ih

/-- C3 (counterexample): a one-record list with no issues formats to nothing,
so the parse of the formatted report contains no record at all and the round
trip fails for it. -/
theorem report_roundtrip_fails_without_issues :
    format_report [⟨"p".data, "p".data, "1".data, [], [], []⟩] = [] ∧
    parse_report (format_report [⟨"p".data, "p".data, "1".data, [], [], []⟩]) = [] :=
  ⟨by decide, by decide⟩

/-- Witness for the round-trip theorem at a concrete two-category entry. -/
theorem report_roundtrip_witness :
    List.Forall₂ (fun p r =>
      p.name = r.rookName ∧
      (∀ t, t ∈ p.missing_depends ↔ t ∈ r.missing_depends) ∧
      (∀ t, t ∈ p.missing_build_depends ↔ t ∈ r.missing_build_depends) ∧
      (∀ t, t ∈ p.missing_optional ↔ t ∈ r.missing_optional))
      (parse_report (format_report [demoEntry])) [demoEntry] :=
  report_roundtrip [demoEntry] (by decide)

/-! ## Lemmas about splitOnNl, joinNl and stripping -/

theorem splitOnNl_ne_nil (l : List Char) : splitOnNl l ≠ [] := by
  induction l with
  | nil => simp [splitOnNl]
  | cons c cs ih =>
    unfold splitOnNl
    by_cases hc : c = '\n'
    · simp [hc]
    · simp only [hc, if_false]
      cases h : splitOnNl cs with
      | nil => simp
      | cons r rs => simp

theorem splitOnNl_no_nl : ∀ l : List Char, '\n' ∉ l → splitOnNl l = [l] := by
  intro l hl
  induction l with
  | nil => rfl
  | cons c cs ih =>
    have hc : c ≠ '\n' := fun e => hl (e ▸ List.mem_cons_self _ _)
    have hcs : '\n' ∉ cs := fun h => hl (List.mem_cons_of_mem _ h)
    rw [show splitOnNl (c :: cs) =
        (if c = '\n' then [] :: splitOnNl cs
         else match splitOnNl cs with
           | r :: rs => (c :: r) :: rs
           | [] => [[c]]) from rfl]
    rw [if_neg hc, ih hcs]

theorem no_nl_mem_splitOnNl : ∀ (l p : List Char), p ∈ splitOnNl l → '\n' ∉ p := by
  intro l
  induction l with
  | nil =>
    intro p hp
    simp [splitOnNl] at hp
    simp [hp]
  | cons c cs ih =>
    intro p hp
    unfold splitOnNl at hp
    by_cases hc : c = '\n'
    · simp only [hc, if_pos rfl] at hp
      rcases List.mem_cons.mp hp with rfl | hp2
      · simp
      · exact ih p hp2
    · simp only [hc, if_false] at hp
      cases h : splitOnNl cs with
      | nil => exact absurd h (splitOnNl_ne_nil cs)
      | cons r rs =>
        rw [h] at hp
        rcases List.mem_cons.mp hp with rfl | hp2
        · intro hmem
          rcases List.mem_cons.mp hmem with h1 | h2
          · exact hc h1.symm
          · exact ih r (h ▸ List.mem_cons_self _ _) h2
        · exact ih p (h ▸ List.mem_cons_of_mem _ hp2)

theorem joinNl_splitOnNl : ∀ l : List Char, joinNl (splitOnNl l) = l := by
  intro l
  induction l with
  | nil => rfl
  | cons c cs ih =>
    unfold splitOnNl
    by_cases hc : c = '\n'
    · subst hc
      simp only [if_pos rfl]
      cases h : splitOnNl cs with
      | nil => exact absurd h (splitOnNl_ne_nil cs)
      | cons r rs =>
        rw [h] at ih
        show joinNl ([] :: r :: rs) = '\n' :: cs
        unfold joinNl
        rw [ih]
        rfl
    · simp only [hc, if_false]
      cases h : splitOnNl cs with
      | nil => exact absurd h (splitOnNl_ne_nil cs)
      | cons r rs =>
        rw [h] at ih
        cases rs with
        | nil =>
          show joinNl [c :: r] = c :: cs
          show c :: r = c :: cs
          rw [show r = joinNl [r] from rfl, ih]
        | cons r2 rs2 =>
          show joinNl ((c :: r) :: r2 :: rs2) = c :: cs
          show (c :: r) ++ '\n' :: joinNl (r2 :: rs2) = c :: cs
          rw [List.cons_append, ← joinNl, ih]

theorem splitOnNl_append_nl : ∀ (a x : List Char), '\n' ∉ a →
    splitOnNl (a ++ '\n' :: x) = a :: splitOnNl x := by
  intro a x ha
  induction a with
  | nil => rfl
  | cons c cs ih =>
    have hc : c ≠ '\n' := fun e => ha (e ▸ List.mem_cons_self _ _)
    have hcs : '\n' ∉ cs := fun h => ha (List.mem_cons_of_mem _ h)
    show splitOnNl (c :: (cs ++ '\n' :: x)) = (c :: cs) :: splitOnNl x
    rw [show splitOnNl (c :: (cs ++ '\n' :: x)) =
        (if c = '\n' then [] :: splitOnNl (cs ++ '\n' :: x)
         else match splitOnNl (cs ++ '\n' :: x) with
           | r :: rs => (c :: r) :: rs
           | [] => [[c]]) from rfl]
    rw [if_neg hc, ih hcs]

theorem splitOnNl_joinNl : ∀ ls : List (List Char), ls ≠ [] →
    (∀ p ∈ ls, '\n' ∉ p) → splitOnNl (joinNl ls) = ls := by
  intro ls
  induction ls with
  | nil => intro h; exact absurd rfl h
  | cons a ls ih =>
    intro _ hnl
    cases ls with
    | nil => exact splitOnNl_no_nl a (hnl a (List.mem_cons_self _ _))
    | cons b ls2 =>
      show splitOnNl (a ++ '\n' :: joinNl (b :: ls2)) = a :: b :: ls2
      rw [splitOnNl_append_nl a _ (hnl a (List.mem_cons_self _ _)),
        ih (by simp) (fun p hp => hnl p (List.mem_cons_of_mem _ hp))]

theorem dropWhile_append_ne_nil (p : Char → Bool) :
    ∀ (a b : List Char), a.dropWhile p ≠ [] →
    (a ++ b).dropWhile p = a.dropWhile p ++ b := by
  intro a b h
  induction a with
  | nil => exact absurd rfl h
  | cons c cs ih =>
    by_cases hc : p c = true
    · simp only [List.dropWhile_cons, hc, if_true, List.cons_append] at h ⊢
      exact ih h
    · rw [Bool.not_eq_true] at hc
      simp [List.dropWhile_cons, hc]

theorem dropWhile_append_nil (p : Char → Bool) :
    ∀ (a b : List Char), a.dropWhile p = [] →
    (a ++ b).dropWhile p = b.dropWhile p := by
  intro a b h
  induction a with
  | nil => rfl
  | cons c cs ih =>
    by_cases hc : p c = true
    · simp only [List.dropWhile_cons, hc, if_true, List.cons_append] at h ⊢
      exact ih h
    · rw [Bool.not_eq_true] at hc
      simp [List.dropWhile_cons, hc] at h

theorem rstripP_concat_in (p : Char → Bool) (l : List Char) (c : Char) (hc : p c = true) :
    rstripP p (l ++ [c]) = rstripP p l := by
  unfold rstripP
  rw [List.reverse_append]
  show ((c :: l.reverse).dropWhile p).reverse = _
  simp [List.dropWhile_cons, hc]

theorem stripP_concat_in (p : Char → Bool) (l : List Char) (c : Char) (hc : p c = true) :
    stripP p (l ++ [c]) = stripP p l := by
  unfold stripP
  rw [rstripP_concat_in p l c hc]

theorem stripP_cons_in (p : Char → Bool) (l : List Char) (c : Char) (hc : p c = true) :
    stripP p (c :: l) = stripP p l := by
  unfold stripP rstripP lstripP
  show ((((c :: l).reverse.dropWhile p).reverse).dropWhile p) = _
  rw [List.reverse_cons]
  by_cases h : l.reverse.dropWhile p = []
  · rw [dropWhile_append_nil p _ _ h, h]
    show ([c].dropWhile p).reverse.dropWhile p = _
    simp [List.dropWhile_cons, hc]
  · rw [dropWhile_append_ne_nil p _ _ h, List.reverse_append]
    show (List.reverse [c] ++ _).dropWhile p = _
    show (c :: _).dropWhile p = _
    simp [List.dropWhile_cons, hc]

/-! ## Lemmas about the find_section_end scanning loop -/

theorem scanSE_cons (name l : List Char) (ls : List (List Char)) (i : Nat)
    (st : Option Nat) :
    scanSE name (l :: ls) i st =
      if matchesHeader name l then scanSE name ls (i + 1) (some i)
      else if st.isSome && isBoundary l then (st, some i)
      else scanSE name ls (i + 1) st := rfl

theorem scanSE_bound (name : List Char) : ∀ (ls : List (List Char)) (i : Nat)
    (st st2 : Option Nat) (b : Nat),
    scanSE name ls i st = (st2, some b) → i ≤ b ∧ b < i + ls.length := by
  intro ls
  induction ls with
  | nil =>
    intro i st st2 b h
    simp [scanSE] at h
  | cons l ls ih =>
    intro i st st2 b h
    rw [scanSE_cons] at h
    by_cases hm : matchesHeader name l = true
    · simp only [hm, if_true] at h
      have := ih _ _ _ _ h
      simp only [List.length_cons]
      omega
    · simp only [hm, Bool.false_eq_true, if_false] at h
      by_cases hb : (st.isSome && isBoundary l) = true
      · simp only [hb, if_true] at h
        injection h with h1 h2
        injection h2 with h3
        simp only [List.length_cons]
        omega
      · simp only [hb, Bool.false_eq_true, if_false] at h
        have := ih _ _ _ _ h
        simp only [List.length_cons]
        omega

theorem scanSE_st_mono (name : List Char) : ∀ (ls : List (List Char)) (i : Nat)
    (st st2 : Option Nat) (r : Option Nat),
    scanSE name ls i st = (st2, r) → st2 = st ∨ ∃ j, i ≤ j ∧ st2 = some j := by
  intro ls
  induction ls with
  | nil =>
    intro i st st2 r h
    injection h with h1 h2
    exact Or.inl h1.symm
  | cons l ls ih =>
    intro i st st2 r h
    rw [scanSE_cons] at h
    by_cases hm : matchesHeader name l = true
    · simp only [hm, if_true] at h
      rcases ih _ _ _ _ h with h1 | ⟨j, hj1, hj2⟩
      · exact Or.inr ⟨i, Nat.le_refl i, h1⟩
      · exact Or.inr ⟨j, by omega, hj2⟩
    · simp only [hm, Bool.false_eq_true, if_false] at h
      by_cases hb : (st.isSome && isBoundary l) = true
      · simp only [hb, if_true] at h
        injection h with h1 h2
        exact Or.inl h1.symm
      · simp only [hb, Bool.false_eq_true, if_false] at h
        rcases ih _ _ _ _ h with h1 | ⟨j, hj1, hj2⟩
        · exact Or.inl h1
        · exact Or.inr ⟨j, by omega, hj2⟩

theorem scanSE_append_none (name : List Char) : ∀ (l1 l2 : List (List Char)) (i : Nat)
    (st st2 : Option Nat),
    scanSE name l1 i st = (st2, none) →
    scanSE name (l1 ++ l2) i st = scanSE name l2 (i + l1.length) st2 := by
  intro l1
  induction l1 with
  | nil =>
    intro l2 i st st2 h
    injection h with h1 h2
    subst h1
    simp
  | cons l ls ih =>
    intro l2 i st st2 h
    rw [scanSE_cons] at h
    rw [List.cons_append, scanSE_cons]
    have harith : i + (l :: ls).length = i + 1 + ls.length := by
      simp [List.length_cons]
      omega
    by_cases hm : matchesHeader name l = true
    · simp only [hm, if_true] at h ⊢
      rw [harith]
      exact ih _ _ _ _ h
    · simp only [hm, Bool.false_eq_true, if_false] at h ⊢
      by_cases hb : (st.isSome && isBoundary l) = true
      · simp only [hb, if_true] at h
        exact absurd h (by simp)
      · simp only [hb, Bool.false_eq_true, if_false] at h ⊢
        rw [harith]
        exact ih _ _ _ _ h

theorem scanSE_append_some (name : List Char) : ∀ (l1 l2 : List (List Char)) (i : Nat)
    (st st2 : Option Nat) (b : Nat),
    scanSE name l1 i st = (st2, some b) →
    scanSE name (l1 ++ l2) i st = (st2, some b) := by
  intro l1
  induction l1 with
  | nil =>
    intro l2 i st st2 b h
    simp [scanSE] at h
  | cons l ls ih =>
    intro l2 i st st2 b h
    rw [scanSE_cons] at h
    rw [List.cons_append, scanSE_cons]
    by_cases hm : matchesHeader name l = true
    · simp only [hm, if_true] at h ⊢
      exact ih _ _ _ _ _ h
    · simp only [hm, Bool.false_eq_true, if_false] at h ⊢
      by_cases hb : (st.isSome && isBoundary l) = true
      · simp only [hb, if_true] at h ⊢
        exact h
      · simp only [hb, Bool.false_eq_true, if_false] at h ⊢
        exact ih _ _ _ _ _ h

theorem scanSE_skip (name : List Char) : ∀ (ls : List (List Char)) (i : Nat)
    (st : Option Nat),
    (∀ l ∈ ls, matchesHeader name l = false ∧ isBoundary l = false) →
    scanSE name ls i st = (st, none) := by
  intro ls
  induction ls with
  | nil => intro i st _; rfl
  | cons l ls ih =>
    intro i st h
    have hl := h l (List.mem_cons_self _ _)
    rw [scanSE_cons]
    simp only [hl.1, hl.2, Bool.false_eq_true, if_false, Bool.and_false]
    exact ih _ _ (fun x hx => h x (List.mem_cons_of_mem _ hx))

theorem scanSE_reloc (name : List Char) : ∀ (ls : List (List Char)) (i1 i2 s1 s2 : Nat)
    (r : Option Nat),
    scanSE name ls i1 (some s1) = (some s1, r) → s1 < i1 → s2 < i2 →
    scanSE name ls i2 (some s2) = (some s2, r.map (fun b => i2 + (b - i1))) := by
  intro ls
  induction ls with
  | nil =>
    intro i1 i2 s1 s2 r h h1 h2
    injection h with ha hb
    subst hb
    rfl
  | cons l ls ih =>
    intro i1 i2 s1 s2 r h h1 h2
    rw [scanSE_cons] at h ⊢
    by_cases hm : matchesHeader name l = true
    · exfalso
      simp only [hm, if_true] at h
      rcases scanSE_st_mono name _ _ _ _ _ h with hst | ⟨j, hj1, hj2⟩
      · injection hst with he
        omega
      · injection hj2 with he
        omega
    · simp only [hm, Bool.false_eq_true, if_false, Option.isSome_some, Bool.true_and] at h ⊢
      by_cases hb : isBoundary l = true
      · simp only [hb, if_true] at h ⊢
        injection h with ha hbb
        subst hbb
        simp
      · simp only [hb, Bool.false_eq_true, if_false] at h ⊢
        have hrec := ih (i1 + 1) (i2 + 1) s1 s2 r h (by omega) (by omega)
        rw [hrec]
        cases hr : r with
        | none => rfl
        | some b =>
          have hbnd := scanSE_bound name ls (i1 + 1) (some s1) (some s1) b (hr ▸ h)
          show (some s2, some (i2 + 1 + (b - (i1 + 1)))) = (some s2, some (i2 + (b - i1)))
          have he : i2 + 1 + (b - (i1 + 1)) = i2 + (b - i1) := by omega
          rw [he]

/-! ## Keys of a section body survive the join / strip / split round trip -/

theorem keyOf_congr (a b : List Char) (h : pyStrip a = pyStrip b) : keyOf a = keyOf b := by
  unfold keyOf
  rw [h]

theorem pyStrip_cons_ws (c : Char) (l : List Char) (hc : isPySpaceChar c = true) :
    pyStrip (c :: l) = pyStrip l :=
  stripP_cons_in isPySpaceChar l c hc

theorem pyStrip_concat_ws (c : Char) (l : List Char) (hc : isPySpaceChar c = true) :
    pyStrip (l ++ [c]) = pyStrip l :=
  stripP_concat_in isPySpaceChar l c hc

theorem splitOnNl_concat_nl : ∀ a : List Char, splitOnNl (a ++ ['\n']) = splitOnNl a ++ [[]] := by
  intro a
  induction a with
  | nil => rfl
  | cons d ds ih =>
    by_cases hd : d = '\n'
    · subst hd
      show splitOnNl ('\n' :: (ds ++ ['\n'])) = ([] :: splitOnNl ds) ++ [[]]
      rw [show splitOnNl ('\n' :: (ds ++ ['\n'])) = [] :: splitOnNl (ds ++ ['\n']) from rfl,
        ih, List.cons_append]
    · show splitOnNl (d :: (ds ++ ['\n'])) = splitOnNl (d :: ds) ++ [[]]
      rw [show splitOnNl (d :: (ds ++ ['\n'])) =
          (if d = '\n' then [] :: splitOnNl (ds ++ ['\n'])
           else match splitOnNl (ds ++ ['\n']) with
             | r :: rs => (d :: r) :: rs
             | [] => [[d]]) from rfl,
        if_neg hd, ih,
        show splitOnNl (d :: ds) =
          (if d = '\n' then [] :: splitOnNl ds
           else match splitOnNl ds with
             | r :: rs => (d :: r) :: rs
             | [] => [[d]]) from rfl,
        if_neg hd]
      cases h : splitOnNl ds with
      | nil => exact absurd h (splitOnNl_ne_nil ds)
      | cons r rs => rfl

theorem splitOnNl_concat_char : ∀ (a : List Char) (c : Char), c ≠ '\n' →
    ∃ init last, splitOnNl a = init ++ [last] ∧
      splitOnNl (a ++ [c]) = init ++ [last ++ [c]] := by
  intro a c hc
  induction a with
  | nil =>
    refine ⟨[], [], rfl, ?_⟩
    show splitOnNl [c] = [[c]]
    rw [show splitOnNl [c] =
        (if c = '\n' then [] :: splitOnNl []
         else match splitOnNl [] with
           | r :: rs => (c :: r) :: rs
           | [] => [[c]]) from rfl, if_neg hc]
    rfl
  | cons d ds ih =>
    obtain ⟨init, last, h1, h2⟩ := ih
    by_cases hd : d = '\n'
    · subst hd
      refine ⟨[] :: init, last, ?_, ?_⟩
      · show [] :: splitOnNl ds = ([] :: init) ++ [last]
        rw [h1, List.cons_append]
      · show splitOnNl ('\n' :: (ds ++ [c])) = ([] :: init) ++ [last ++ [c]]
        rw [show splitOnNl ('\n' :: (ds ++ [c])) = [] :: splitOnNl (ds ++ [c]) from rfl,
          h2, List.cons_append]
    · cases hin : init with
      | nil =>
        refine ⟨[], d :: last, ?_, ?_⟩
        · rw [hin] at h1
          show splitOnNl (d :: ds) = [d :: last]
          rw [show splitOnNl (d :: ds) =
              (if d = '\n' then [] :: splitOnNl ds
               else match splitOnNl ds with
                 | r :: rs => (d :: r) :: rs
                 | [] => [[d]]) from rfl, if_neg hd, h1]
          rfl
        · rw [hin] at h2
          show splitOnNl (d :: (ds ++ [c])) = [(d :: last) ++ [c]]
          rw [show splitOnNl (d :: (ds ++ [c])) =
              (if d = '\n' then [] :: splitOnNl (ds ++ [c])
               else match splitOnNl (ds ++ [c]) with
                 | r :: rs => (d :: r) :: rs
                 | [] => [[d]]) from rfl, if_neg hd, h2]
          rfl
      | cons i0 irest =>
        refine ⟨(d :: i0) :: irest, last, ?_, ?_⟩
        · rw [hin] at h1
          show splitOnNl (d :: ds) = ((d :: i0) :: irest) ++ [last]
          rw [show splitOnNl (d :: ds) =
              (if d = '\n' then [] :: splitOnNl ds
               else match splitOnNl ds with
                 | r :: rs => (d :: r) :: rs
                 | [] => [[d]]) from rfl, if_neg hd, h1]
          rfl
        · rw [hin] at h2
          show splitOnNl (d :: (ds ++ [c])) = ((d :: i0) :: irest) ++ [last ++ [c]]
          rw [show splitOnNl (d :: (ds ++ [c])) =
              (if d = '\n' then [] :: splitOnNl (ds ++ [c])
               else match splitOnNl (ds ++ [c]) with
                 | r :: rs => (d :: r) :: rs
                 | [] => [[d]]) from rfl, if_neg hd, h2]
          rfl

theorem keysOfContent_lstrip : ∀ s : List Char,
    keysOfContent (lstripP isPySpaceChar s) = keysOfContent s := by
  intro s
  induction s with
  | nil => rfl
  | cons c cs ih =>
    by_cases hws : isPySpaceChar c = true
    · have hl : lstripP isPySpaceChar (c :: cs) = lstripP isPySpaceChar cs := by
        simp [lstripP, List.dropWhile_cons, hws]
      rw [hl, ih]
      by_cases hnl : c = '\n'
      · subst hnl
        show keysOfContent cs = keysOfContent ('\n' :: cs)
        unfold keysOfContent
        rw [show splitOnNl ('\n' :: cs) = [] :: splitOnNl cs from rfl]
        rfl
      · show keysOfContent cs = keysOfContent (c :: cs)
        unfold keysOfContent
        cases hsp : splitOnNl cs with
        | nil => exact absurd hsp (splitOnNl_ne_nil cs)
        | cons r rs =>
          rw [show splitOnNl (c :: cs) =
              (if c = '\n' then [] :: splitOnNl cs
               else match splitOnNl cs with
                 | r :: rs => (c :: r) :: rs
                 | [] => [[c]]) from rfl, if_neg hnl, hsp]
          show List.filterMap keyOf (r :: rs) = List.filterMap keyOf ((c :: r) :: rs)
          rw [List.filterMap_cons, List.filterMap_cons,
            keyOf_congr (c :: r) r (pyStrip_cons_ws c r hws)]
    · rw [Bool.not_eq_true] at hws
      have hl : lstripP isPySpaceChar (c :: cs) = c :: cs := by
        simp [lstripP, List.dropWhile_cons, hws]
      rw [hl]

theorem keysOfContent_rstrip : ∀ s : List Char,
    keysOfContent (rstripP isPySpaceChar s) = keysOfContent s := by
  intro s
  induction s using List.reverseRecOn with
  | nil => rfl
  | append_singleton a c ih =>
    by_cases hws : isPySpaceChar c = true
    · rw [rstripP_concat_in _ _ _ hws, ih]
      by_cases hnl : c = '\n'
      · subst hnl
        unfold keysOfContent
        rw [splitOnNl_concat_nl, List.filterMap_append]
        rw [show List.filterMap keyOf [[]] = [] from rfl, List.append_nil]
      · obtain ⟨init, last, h1, h2⟩ := splitOnNl_concat_char a c hnl
        unfold keysOfContent
        rw [h1, h2, List.filterMap_append, List.filterMap_append]
        have hk : keyOf (last ++ [c]) = keyOf last :=
          keyOf_congr _ _ (pyStrip_concat_ws c last hws)
        rw [List.filterMap_cons, List.filterMap_cons, hk]
    · rw [Bool.not_eq_true] at hws
      show keysOfContent (pyRstrip (a ++ [c])) = _
      rw [pyRstrip_concat_nonws a c hws]

theorem keysOfContent_strip_join (ls : List (List Char)) (h : ∀ p ∈ ls, '\n' ∉ p) :
    keysOfContent (pyStrip (joinNl ls)) = ls.filterMap keyOf := by
  have h1 : keysOfContent (pyStrip (joinNl ls)) = keysOfContent (joinNl ls) := by
    show keysOfContent (lstripP isPySpaceChar (rstripP isPySpaceChar (joinNl ls))) = _
    rw [keysOfContent_lstrip, keysOfContent_rstrip]
  rw [h1]
  cases ls with
  | nil => rfl
  | cons a t =>
    unfold keysOfContent
    rw [splitOnNl_joinNl _ (by simp) h]

/-! ## Properties of the generated dependency lines -/

theorem mem_containsC (l : List Char) (c : Char) : l.contains c = true ↔ c ∈ l := by
  simp [List.contains, List.elem_iff]

theorem rstripP_eq_self (p : Char → Bool) (l : List Char)
    (hl : ∀ c, l.getLast? = some c → p c = false) : rstripP p l = l := by
  unfold rstripP
  rw [dropWhile_eq_self_of_head p l.reverse
    (fun c hc => hl c (by rwa [List.head?_reverse] at hc))]
  exact List.reverse_reverse l

theorem getLast?_concatC (l : List Char) (c : Char) : (l ++ [c]).getLast? = some c := by
  rw [← List.head?_reverse, List.reverse_append]
  rfl

theorem takeWhile_append_all (p : Char → Bool) :
    ∀ (d x : List Char), (∀ a ∈ d, p a = true) →
    (d ++ x).takeWhile p = d ++ x.takeWhile p := by
  intro d x h
  induction d with
  | nil => rfl
  | cons a t ih =>
    have ha : p a = true := h a (List.mem_cons_self _ _)
    show (a :: (t ++ x)).takeWhile p = a :: (t ++ x.takeWhile p)
    rw [List.takeWhile_cons, ha]
    simp only [if_true]
    rw [ih (fun b hb => h b (List.mem_cons_of_mem _ hb))]

theorem pyDictLookup_mem [DecidableEq κ] :
    ∀ (tbl : List (κ × α)) (k : κ) (v : α) (acc : Option α),
    tbl.foldl (fun acc p => if p.1 = k then some p.2 else acc) acc = some v →
    (∃ p ∈ tbl, p.2 = v) ∨ acc = some v := by
  intro tbl
  induction tbl with
  | nil =>
    intro k v acc h
    exact Or.inr h
  | cons q t ih =>
    intro k v acc h
    rw [List.foldl_cons] at h
    rcases ih k v _ h with ⟨p, hp, hpv⟩ | hacc
    · exact Or.inl ⟨p, List.mem_cons_of_mem _ hp, hpv⟩
    · by_cases hq : q.1 = k
      · rw [if_pos hq] at hacc
        injection hacc with he
        exact Or.inl ⟨q, List.mem_cons_self _ _, he⟩
      · rw [if_neg hq] at hacc
        exact Or.inr hacc

theorem verOf_good (d : List Char) : ∀ c ∈ verOf d, goodChar c = true := by
  intro c hc
  unfold verOf at hc
  cases hlk : pyDictLookup known_versions d with
  | none =>
    rw [hlk] at hc
    have h10 : ∀ x ∈ "1.0".data, goodChar x = true := by decide
    exact h10 c hc
  | some v =>
    rw [hlk] at hc
    have hall : ∀ p ∈ known_versions, ∀ x ∈ p.2, goodChar x = true := by decide
    rcases pyDictLookup_mem known_versions d v none hlk with ⟨p, hp, hpv⟩ | habs
    · exact hall p hp c (hpv ▸ hc)
    · exact Option.noConfusion habs

theorem mkLine_no_nl (d : List Char) (hd : goodTok d = true) : '\n' ∉ mkLine d := by
  intro hmem
  unfold mkLine at hmem
  have hs : ∀ x ∈ " = \">= ".data, x ≠ '\n' := by decide
  rcases List.mem_append.mp hmem with h1 | h2
  · rcases List.mem_append.mp h1 with h3 | h4
    · rcases List.mem_append.mp h3 with h5 | h6
      · exact goodChar_ne _ _ (goodTok_all d hd _ h5) (by decide) rfl
      · exact hs _ h6 rfl
    · exact goodChar_ne _ _ (verOf_good d _ h4) (by decide) rfl
  · exact absurd (List.mem_singleton.mp h2) (by decide)

theorem mkLine_cons (d0 : Char) (dt : List Char) :
    mkLine (d0 :: dt) =
      d0 :: (((dt ++ " = \">= ".data) ++ verOf (d0 :: dt)) ++ ['"']) := rfl

theorem pyStrip_mkLine (d : List Char) (hd : goodTok d = true) :
    pyStrip (mkLine d) = mkLine d := by
  cases d with
  | nil => exact absurd rfl (goodTok_ne_nil [] hd)
  | cons d0 dt =>
    refine stripP_eq_self _ _ (fun c hc => ?_) (fun c hc => ?_)
    · rw [mkLine_cons] at hc
      injection hc with he
      rw [← he]
      exact goodChar_not_space d0 (goodTok_all _ hd d0 (List.mem_cons_self _ _))
    · have : (mkLine (d0 :: dt)).getLast? = some '"' := getLast?_concatC _ '"'
      rw [this] at hc
      injection hc with he
      rw [← he]
      rfl

theorem matchesHeader_mkLine (name d : List Char) (hd : goodTok d = true) :
    matchesHeader name (mkLine d) = false := by
  unfold matchesHeader
  rw [pyStrip_mkLine d hd]
  cases d with
  | nil => exact absurd rfl (goodTok_ne_nil [] hd)
  | cons d0 dt =>
    rw [beq_eq_false_iff_ne]
    rw [mkLine_cons]
    intro he
    have hd0 : d0 = '[' := (List.cons.injEq _ _ _ _).mp he |>.1
    exact goodChar_ne d0 '[' (goodTok_all _ hd d0 (List.mem_cons_self _ _)) (by decide) hd0

theorem isBoundary_mkLine (d : List Char) (hd : goodTok d = true) :
    isBoundary (mkLine d) = false := by
  unfold isBoundary
  rw [pyStrip_mkLine d hd]
  cases d with
  | nil => exact absurd rfl (goodTok_ne_nil [] hd)
  | cons d0 dt =>
    have h1 : startsWithL ['['] (mkLine (d0 :: dt)) = false := by
      rw [mkLine_cons]
      show ((('[' : Char) == d0) && true) = false
      rw [beq_eq_false_iff_ne.mpr
        (fun he => goodChar_ne d0 '[' (goodTok_all _ hd d0 (List.mem_cons_self _ _))
          (by decide) he.symm)]
      rfl
    rw [h1]
    rfl

theorem keyOf_mkLine (d : List Char) (hd : goodTok d = true) : keyOf (mkLine d) = some d := by
  have hall := goodTok_all d hd
  cases hdc : d with
  | nil => exact absurd hdc (goodTok_ne_nil d hd)
  | cons d0 dt =>
    subst hdc
    have hne : (mkLine (d0 :: dt)).isEmpty = false := by
      rw [mkLine_cons]
      rfl
    have hsh : startsWithL ['#'] (mkLine (d0 :: dt)) = false := by
      rw [mkLine_cons]
      show ((('#' : Char) == d0) && true) = false
      rw [beq_eq_false_iff_ne.mpr
        (fun he => goodChar_ne d0 '#' (hall d0 (List.mem_cons_self _ _)) (by decide) he.symm)]
      rfl
    have heq : (mkLine (d0 :: dt)).contains '=' = true := by
      rw [mem_containsC]
      unfold mkLine
      refine List.mem_append.mpr (Or.inl (List.mem_append.mpr (Or.inl ?_)))
      refine List.mem_append.mpr (Or.inr ?_)
      decide
    have htw : (mkLine (d0 :: dt)).takeWhile (fun c => c != '=') = (d0 :: dt) ++ [' '] := by
      unfold mkLine
      rw [List.append_assoc, List.append_assoc,
        takeWhile_append_all _ _ _
          (fun a ha => by
            have hne2 : a ≠ '=' := goodChar_ne a '=' (hall a ha) (by decide)
            simp [hne2])]
      rfl
    have hps : pyStrip ((d0 :: dt) ++ [' ']) = d0 :: dt := by
      show stripP isPySpaceChar ((d0 :: dt) ++ [' ']) = d0 :: dt
      rw [stripP_concat_in _ _ _ (by decide)]
      refine stripP_eq_self _ _ (fun c hc => ?_) (fun c hc => ?_)
      · exact goodChar_not_space c (hall c (mem_of_headq _ _ hc))
      · exact goodChar_not_space c (hall c (mem_of_getLastq _ _ hc))
    have hq : stripP (fun c => c == '"') (d0 :: dt) = d0 :: dt := by
      refine stripP_eq_self _ _ (fun c hc => ?_) (fun c hc => ?_)
      · exact beq_eq_false_iff_ne.mpr
          (goodChar_ne c '"' (hall c (mem_of_headq _ _ hc)) (by decide))
      · exact beq_eq_false_iff_ne.mpr
          (goodChar_ne c '"' (hall c (mem_of_getLastq _ _ hc)) (by decide))
    unfold keyOf
    simp only [pyStrip_mkLine _ hd, hne, hsh, heq, Bool.not_false, Bool.and_true,
      Bool.true_and, if_true, htw, hps, hq]

/-! ## The insertion loop as a single splice, and the insert_at scan -/

theorem insertIdxL_eq (a : List Char) :
    ∀ (i : Nat) (l : List (List Char)), i ≤ l.length →
    insertIdxL a i l = l.take i ++ a :: l.drop i := by
  intro i
  induction i with
  | zero => intro l _; rfl
  | succ n ih =>
    intro l h
    cases l with
    | nil => simp at h
    | cons b t =>
      show b :: insertIdxL a n t = (b :: t.take n) ++ a :: t.drop n
      rw [ih t (by simpa using h), List.cons_append]

theorem insertAllAt_eq : ∀ (news lines : List (List Char)) (i : Nat), i ≤ lines.length →
    insertAllAt lines i news = lines.take i ++ news ++ lines.drop i := by
  intro news
  induction news with
  | nil =>
    intro lines i h
    show lines = lines.take i ++ [] ++ lines.drop i
    rw [List.append_nil, List.take_append_drop]
  | cons n ns ih =>
    intro lines i h
    show insertAllAt (insertIdxL n i lines) (i + 1) ns = _
    rw [insertIdxL_eq n i lines h]
    have hA : (lines.take i).length = i := by
      rw [List.length_take]
      omega
    have hlen : (lines.take i ++ n :: lines.drop i).length = lines.length + 1 := by
      simp only [List.length_append, List.length_cons, List.length_take, List.length_drop]
      omega
    rw [ih _ (i + 1) (by omega)]
    have ht : (lines.take i ++ n :: lines.drop i).take (i + 1) = lines.take i ++ [n] := by
      rw [show i + 1 = (lines.take i).length + 1 from by rw [hA], List.take_append]
      rfl
    have hd : (lines.take i ++ n :: lines.drop i).drop (i + 1) = lines.drop i := by
      rw [show i + 1 = (lines.take i).length + 1 from by rw [hA], List.drop_append]
      rfl
    rw [ht, hd]
    simp [List.append_assoc]

theorem lastEntryPos_le : ∀ (ls : List (List Char)) (base cur : Nat), cur ≤ base →
    lastEntryPos ls base cur ≤ base + ls.length := by
  intro ls
  induction ls with
  | nil => intro base cur h; simpa using h
  | cons l ls ih =>
    intro base cur h
    show lastEntryPos ls (base + 1) (if entryish l then base + 1 else cur) ≤ _
    have h2 : (if entryish l then base + 1 else cur) ≤ base + 1 := by
      by_cases he : entryish l = true
      · simp [he]
      · rw [Bool.not_eq_true] at he
        simp [he]
        omega
    have := ih (base + 1) _ h2
    simp only [List.length_cons]
    omega

theorem lastEntryPos_ge : ∀ (ls : List (List Char)) (base cur m : Nat),
    m ≤ cur → m ≤ base → m ≤ lastEntryPos ls base cur := by
  intro ls
  induction ls with
  | nil => intro base cur m h _; simpa using h
  | cons l ls ih =>
    intro base cur m h1 h2
    show m ≤ lastEntryPos ls (base + 1) (if entryish l then base + 1 else cur)
    refine ih (base + 1) _ m ?_ (by omega)
    by_cases he : entryish l = true
    · simp [he]
      omega
    · rw [Bool.not_eq_true] at he
      simp [he]
      omega

theorem lastEntryPos_spec : ∀ (ls : List (List Char)) (base cur : Nat),
    (lastEntryPos ls base cur = cur ∧
      ∀ (j : Nat) (l : List Char), ls[j]? = some l → entryish l = false) ∨
    (∃ (j : Nat) (l : List Char), ls[j]? = some l ∧ entryish l = true ∧
      lastEntryPos ls base cur = base + j + 1 ∧
      ∀ (k : Nat) (l2 : List Char), j < k → ls[k]? = some l2 → entryish l2 = false) := by
  intro ls
  induction ls with
  | nil =>
    intro base cur
    refine Or.inl ⟨rfl, ?_⟩
    intro j l h
    simp at h
  | cons l0 ls ih =>
    intro base cur
    have hstep : lastEntryPos (l0 :: ls) base cur =
        lastEntryPos ls (base + 1) (if entryish l0 then base + 1 else cur) := rfl
    rcases ih (base + 1) (if entryish l0 then base + 1 else cur) with
      ⟨heq, hnone⟩ | ⟨j, l, hj, hent, heq, hafter⟩
    · by_cases h0 : entryish l0 = true
      · refine Or.inr ⟨0, l0, by simp, h0, ?_, ?_⟩
        · rw [hstep, heq, if_pos h0]
        · intro k l2 hk hget
          cases k with
          | zero => omega
          | succ k2 =>
            rw [List.getElem?_cons_succ] at hget
            exact hnone k2 l2 hget
      · rw [Bool.not_eq_true] at h0
        refine Or.inl ⟨?_, ?_⟩
        · rw [hstep, heq, h0]
          rfl
        · intro j l hj
          cases j with
          | zero =>
            rw [List.getElem?_cons_zero] at hj
            injection hj with he
            rw [← he]
            exact h0
          | succ j2 =>
            rw [List.getElem?_cons_succ] at hj
            exact hnone j2 l hj
    · refine Or.inr ⟨j + 1, l, ?_, hent, ?_, ?_⟩
      · rw [List.getElem?_cons_succ]
        exact hj
      · rw [hstep, heq]
        omega
      · intro k l2 hk hget
        cases k with
        | zero => omega
        | succ k2 =>
          rw [List.getElem?_cons_succ] at hget
          exact hafter k2 l2 (by omega) hget

theorem scanSE_start_lt_bound (name : List Char) : ∀ (ls : List (List Char)) (i : Nat)
    (st st2 : Option Nat) (b : Nat),
    scanSE name ls i st = (st2, some b) → (∀ j, st = some j → j < i) →
    ∀ j, st2 = some j → j < b := by
  intro ls
  induction ls with
  | nil =>
    intro i st st2 b h _ j _
    simp [scanSE] at h
  | cons l ls ih =>
    intro i st st2 b h hst j hj
    rw [scanSE_cons] at h
    by_cases hm : matchesHeader name l = true
    · simp only [hm, if_true] at h
      exact ih _ _ _ _ h (by intro j2 hj2; injection hj2 with he; omega) j hj
    · simp only [hm, Bool.false_eq_true, if_false] at h
      by_cases hb : (st.isSome && isBoundary l) = true
      · simp only [hb, if_true] at h
        injection h with h1 h2
        injection h2 with h3
        subst h3
        exact hst j (h1 ▸ hj)
      · simp only [hb, Bool.false_eq_true, if_false] at h
        exact ih _ _ _ _ h (by intro j2 hj2; have := hst j2 hj2; omega) j hj

theorem scanSE_start_bound (name : List Char) : ∀ (ls : List (List Char)) (i : Nat)
    (st st2 : Option Nat) (r : Option Nat),
    scanSE name ls i st = (st2, r) → ∀ j, st2 = some j → st = some j ∨ j < i + ls.length := by
  intro ls
  induction ls with
  | nil =>
    intro i st st2 r h j hj
    injection h with h1 h2
    exact Or.inl (h1 ▸ hj)
  | cons l ls ih =>
    intro i st st2 r h j hj
    rw [scanSE_cons] at h
    simp only [List.length_cons]
    by_cases hm : matchesHeader name l = true
    · simp only [hm, if_true] at h
      rcases ih _ _ _ _ h j hj with h1 | h2
      · injection h1 with he
        omega
      · omega
    · simp only [hm, Bool.false_eq_true, if_false] at h
      by_cases hb : (st.isSome && isBoundary l) = true
      · simp only [hb, if_true] at h
        injection h with h1 h2
        exact Or.inl (h1 ▸ hj)
      · simp only [hb, Bool.false_eq_true, if_false] at h
        rcases ih _ _ _ _ h j hj with h1 | h2
        · exact Or.inl h1
        · exact Or.inr (by omega)

/-! ## Claim C9: a missing section leaves the content untouched -/

theorem scanSE_no_header (name : List Char) : ∀ (ls : List (List Char)) (i : Nat),
    (∀ l ∈ ls, matchesHeader name l = false) →
    scanSE name ls i none = (none, none) := by
  intro ls
  induction ls with
  | nil => intro i _; rfl
  | cons l ls ih =>
    intro i h
    rw [scanSE_cons]
    simp only [h l (List.mem_cons_self _ _), Bool.false_eq_true, if_false,
      Option.isSome_none, Bool.false_and]
    exact ih _ (fun x hx => h x (List.mem_cons_of_mem _ hx))

/-- C9: if no whitespace-trimmed line of the input equals the bracketed
section header, add_deps_to_section returns the input unchanged for every
dependency list (the patcher is a no-op, surfaced by the caller as a
warning). -/
theorem add_deps_section_absent (content name : List Char) (deps : List (List Char))
    (h : ∀ l ∈ splitOnNl content, pyStrip l ≠ '[' :: (name ++ [']'])) :
    add_deps_to_section content name deps = content := by
  have hscan : scanSE name (splitOnNl content) 0 none = (none, none) :=
    scanSE_no_header name _ 0
      (fun l hl => by
        unfold matchesHeader
        exact beq_eq_false_iff_ne.mpr (h l hl))
  have hfind : find_section_end content name = none := by
    simp only [find_section_end]
    rw [hscan]
  have hext : get_existing_deps content name = [] := by
    unfold get_existing_deps
    rw [hfind]
    rfl
  simp only [add_deps_to_section]
  rw [hext, hfind]
  by_cases hd : deps.isEmpty = true
  · rw [if_pos hd]
  · rw [Bool.not_eq_true] at hd
    rw [hd]
    simp

/-- Witness for C9 at a concrete file with no [depends] section. -/
theorem add_deps_section_absent_witness :
    add_deps_to_section "x = \"1\"".data "depends".data ["zlib".data] = "x = \"1\"".data :=
  add_deps_section_absent _ _ _ (by decide)

/-! ## Claim C5: the patcher performs a single contiguous splice -/

theorem find_section_end_inv (content name : List Char) (s e : Nat) (sc : List Char)
    (h : find_section_end content name = some (s, e, sc)) :
    ∃ eOpt, scanSE name (splitOnNl content) 0 none = (some s, eOpt) ∧
      e = eOpt.getD (splitOnNl content).length := by
  simp only [find_section_end] at h
  cases hscan : scanSE name (splitOnNl content) 0 none with
  | mk st eOpt =>
    rw [hscan] at h
    cases st with
    | none => exact absurd h (by simp)
    | some s2 =>
      simp only [Option.some.injEq, Prod.mk.injEq] at h
      obtain ⟨hs2, he2, _⟩ := h
      subst hs2
      exact ⟨eOpt, rfl, he2.symm⟩

theorem window_get (lines : List (List Char)) (s e j : Nat) (hj : j < e - (s + 1)) :
    ((lines.drop (s + 1)).take (e - (s + 1)))[j]? = lines[s + 1 + j]? := by
  rw [List.getElem?_take, if_pos hj, List.getElem?_drop]

theorem scanSE_lt_e (content name : List Char) (s e : Nat) (sc : List Char)
    (h : find_section_end content name = some (s, e, sc)) :
    s < e ∧ e ≤ (splitOnNl content).length := by
  obtain ⟨eOpt, hscan, he⟩ := find_section_end_inv content name s e sc h
  cases eOpt with
  | none =>
    have hs := scanSE_start_bound name _ _ _ _ _ hscan s rfl
    rcases hs with h1 | h2
    · exact absurd h1 (by simp)
    · have hel : e = (splitOnNl content).length := by simpa using he
      have h3 : s < (splitOnNl content).length := by simpa using h2
      omega
  | some b =>
    have hlt := scanSE_start_lt_bound name _ _ _ _ _ hscan (by intro j hj; cases hj) s rfl
    have hbnd := scanSE_bound name _ _ _ _ _ hscan
    have heb : e = b := by simpa using he
    have h4 : b < (splitOnNl content).length := by
      have := hbnd.2
      omega
    omega

theorem add_deps_splice (content name : List Char) (deps : List (List Char)) :
    add_deps_to_section content name deps = content ∨
    ∃ s e sc ia,
      find_section_end content name = some (s, e, sc) ∧
      s + 1 ≤ ia ∧ ia ≤ e ∧ e ≤ (splitOnNl content).length ∧
      add_deps_to_section content name deps =
        joinNl ((splitOnNl content).take ia ++
          (sortTokens (deps.filter
            (fun d => !(get_existing_deps content name).contains d))).map mkLine ++
          (splitOnNl content).drop ia) ∧
      ((ia = s + 1 ∧
        ∀ (i : Nat) (l : List Char), s + 1 ≤ i → i < e →
          (splitOnNl content)[i]? = some l → entryish l = false) ∨
       (∃ l0, (splitOnNl content)[ia - 1]? = some l0 ∧ entryish l0 = true ∧
        s + 1 ≤ ia - 1 ∧ ia - 1 < e ∧
        ∀ (i : Nat) (l : List Char), ia ≤ i → i < e →
          (splitOnNl content)[i]? = some l → entryish l = false)) := by
  by_cases h1 : deps.isEmpty = true
  · left
    simp only [add_deps_to_section]
    rw [if_pos h1]
  · by_cases h2 : (deps.filter
        (fun d => !(get_existing_deps content name).contains d)).isEmpty = true
    · left
      simp only [add_deps_to_section]
      rw [Bool.not_eq_true] at h1
      rw [h1]
      simp only [Bool.false_eq_true, if_false]
      rw [if_pos h2]
    · cases hf : find_section_end content name with
      | none =>
        left
        simp only [add_deps_to_section]
        rw [Bool.not_eq_true] at h1 h2
        rw [h1]
        simp only [Bool.false_eq_true, if_false]
        rw [h2]
        simp only [Bool.false_eq_true, if_false, hf]
      | some tpl =>
        obtain ⟨s, e, sc⟩ := tpl
        right
        have hse := scanSE_lt_e content name s e sc hf
        have hwinlen : (((splitOnNl content).drop (s + 1)).take (e - (s + 1))).length
            = e - (s + 1) := by
          rw [List.length_take, List.length_drop]
          omega
        have hia_le : insertPos (splitOnNl content) s e ≤ e := by
          unfold insertPos
          have := lastEntryPos_le (((splitOnNl content).drop (s + 1)).take (e - (s + 1)))
            (s + 1) (s + 1) (Nat.le_refl _)
          rw [hwinlen] at this
          omega
        have hia_ge : s + 1 ≤ insertPos (splitOnNl content) s e := by
          unfold insertPos
          exact lastEntryPos_ge _ _ _ _ (Nat.le_refl _) (Nat.le_refl _)
        refine ⟨s, e, sc, insertPos (splitOnNl content) s e, rfl, hia_ge, hia_le, hse.2, ?_, ?_⟩
        · simp only [add_deps_to_section]
          rw [Bool.not_eq_true] at h1 h2
          rw [h1]
          simp only [Bool.false_eq_true, if_false]
          rw [h2]
          simp only [Bool.false_eq_true, if_false, hf]
          rw [insertAllAt_eq _ _ _ (by omega)]
        · rcases lastEntryPos_spec (((splitOnNl content).drop (s + 1)).take (e - (s + 1)))
            (s + 1) (s + 1) with ⟨heq, hnone⟩ | ⟨j, l, hj, hent, heq, hafter⟩
          · left
            refine ⟨heq, ?_⟩
            intro i l hi1 hi2 hget
            have hj : i - (s + 1) < e - (s + 1) := by omega
            have := hnone (i - (s + 1)) l
            rw [window_get _ s e _ hj] at this
            exact this (by rw [show s + 1 + (i - (s + 1)) = i from by omega]; exact hget)
          · right
            have hjlen : j < e - (s + 1) := by
              have := (List.getElem?_eq_some.mp hj).1
              rw [hwinlen] at this
              exact this
            refine ⟨l, ?_, hent, ?_, ?_, ?_⟩
            · show (splitOnNl content)[insertPos (splitOnNl content) s e - 1]? = some l
              unfold insertPos
              rw [heq]
              rw [window_get _ s e _ hjlen] at hj
              rw [show s + 1 + j + 1 - 1 = s + 1 + j from by omega]
              exact hj
            · unfold insertPos
              rw [heq]
              omega
            · unfold insertPos
              rw [heq]
              omega
            · intro i l2 hi1 hi2 hget
              unfold insertPos at hi1
              rw [heq] at hi1
              have hj2 : i - (s + 1) < e - (s + 1) := by omega
              have := hafter (i - (s + 1)) l2 (by omega)
              rw [window_get _ s e _ hj2] at this
              exact this (by rw [show s + 1 + (i - (s + 1)) = i from by omega]; exact hget)

/-! ## Auxiliary facts for the idempotence of the patcher -/

/-- C5: for every input, section name and entry list, the patcher either
returns the input unchanged or performs one contiguous insertion: the new
lines (the sorted, deduplicated entries rendered as key = ">= version") are
spliced in at a single index ia inside the found section, where either the
section has no non-blank non-comment line and ia is the line right after the
header, or line ia - 1 is the last non-blank non-comment line of the
section; every other line is preserved byte for byte in order. -/
theorem add_deps_frame (content name : List Char) (deps : List (List Char)) :
    add_deps_to_section content name deps = content ∨
    ∃ s e sc ia,
      find_section_end content name = some (s, e, sc) ∧
      s + 1 ≤ ia ∧ ia ≤ e ∧ e ≤ (splitOnNl content).length ∧
      add_deps_to_section content name deps =
        joinNl ((splitOnNl content).take ia ++
          (sortTokens (deps.filter
            (fun d => !(get_existing_deps content name).contains d))).map mkLine ++
          (splitOnNl content).drop ia) ∧
      ((ia = s + 1 ∧
        ∀ (i : Nat) (l : List Char), s + 1 ≤ i → i < e →
          (splitOnNl content)[i]? = some l → entryish l = false) ∨
       (∃ l0, (splitOnNl content)[ia - 1]? = some l0 ∧ entryish l0 = true ∧
        s + 1 ≤ ia - 1 ∧ ia - 1 < e ∧
        ∀ (i : Nat) (l : List Char), ia ≤ i → i < e →
          (splitOnNl content)[i]? = some l → entryish l = false)) :=
  add_deps_splice content name deps

theorem mem_containsLL (l : List (List Char)) (a : List Char) :
    l.contains a = true ↔ a ∈ l := by
  simp [List.contains, List.elem_iff]

theorem find_section_end_sc (content name : List Char) (s e : Nat) (sc : List Char)
    (h : find_section_end content name = some (s, e, sc)) :
    sc = pyStrip (joinNl (((splitOnNl content).drop (s + 1)).take (e - (s + 1)))) := by
  simp only [find_section_end] at h
  cases hscan : scanSE name (splitOnNl content) 0 none with
  | mk st eOpt =>
    rw [hscan] at h
    cases st with
    | none => exact absurd h (by simp)
    | some s2 =>
      simp only [Option.some.injEq, Prod.mk.injEq] at h
      obtain ⟨hs2, he2, hsc⟩ := h
      subst hs2
      rw [← hsc, he2]

theorem insertSorted_ne_nil (a : List Char) : ∀ l, insertSorted a l ≠ [] := by
  intro l
  cases l with
  | nil => simp [insertSorted]
  | cons b t =>
    unfold insertSorted
    by_cases h : leChars a b = true
    · simp [h]
    · rw [Bool.not_eq_true] at h
      simp [h]

theorem sortTokens_ne_nil (l : List (List Char)) (h : l ≠ []) : sortTokens l ≠ [] := by
  cases l with
  | nil => exact absurd rfl h
  | cons a t => exact insertSorted_ne_nil a (sortTokens t)

theorem news_mem_skip (name : List Char) (nd : List (List Char))
    (hgood : ∀ d ∈ nd, goodTok d = true) :
    ∀ p ∈ (sortTokens nd).map mkLine,
      matchesHeader name p = false ∧ isBoundary p = false := by
  intro p hp
  obtain ⟨d, hd, rfl⟩ := List.mem_map.mp hp
  have hdg : goodTok d = true := hgood d ((mem_sortTokens d nd).mp hd)
  exact ⟨matchesHeader_mkLine name d hdg, isBoundary_mkLine d hdg⟩

theorem news_no_nl (nd : List (List Char)) (hgood : ∀ d ∈ nd, goodTok d = true) :
    ∀ p ∈ (sortTokens nd).map mkLine, '\n' ∉ p := by
  intro p hp
  obtain ⟨d, hd, rfl⟩ := List.mem_map.mp hp
  exact mkLine_no_nl d (hgood d ((mem_sortTokens d nd).mp hd))

/-! ## The patched content is a fixed point of the patcher -/

theorem find_section_end_eval (content name : List Char) (s : Nat) (eOpt : Option Nat)
    (h : scanSE name (splitOnNl content) 0 none = (some s, eOpt)) :
    find_section_end content name = some (s, eOpt.getD (splitOnNl content).length,
      pyStrip (joinNl (((splitOnNl content).drop (s + 1)).take
        (eOpt.getD (splitOnNl content).length - (s + 1))))) := by
  simp only [find_section_end]
  rw [h]

theorem add_deps_fixed (name : List Char) (deps A B news : List (List Char))
    (s ia k e : Nat) (eOpt : Option Nat)
    (hAnonl : ∀ p ∈ A, '\n' ∉ p) (hBnonl : ∀ p ∈ B, '\n' ∉ p)
    (hNnonl : ∀ p ∈ news, '\n' ∉ p)
    (hN_ne : news ≠ [])
    (hskipN : ∀ p ∈ news, matchesHeader name p = false ∧ isBoundary p = false)
    (hlenA : A.length = ia) (hk : news.length = k)
    (hSA : scanSE name A 0 none = (some s, none))
    (hscanB : scanSE name B ia (some s) = (some s, eOpt))
    (hs_ia : s + 1 ≤ ia) (hia_e : ia ≤ e)
    (he : e = eOpt.getD (A ++ B).length)
    (hdeps_ne : deps.isEmpty = false)
    (hmem : ∀ d ∈ deps,
      d ∈ (A.drop (s + 1) ++ news ++ B.take (e - ia)).filterMap keyOf) :
    add_deps_to_section (joinNl (A ++ news ++ B)) name deps =
      joinNl (A ++ news ++ B) := by
  have hsplit' : splitOnNl (joinNl (A ++ news ++ B)) = (A ++ news) ++ B := by
    refine splitOnNl_joinNl _ ?_ ?_
    · intro h0
      obtain ⟨h1, _⟩ := List.append_eq_nil.mp h0
      obtain ⟨_, h3⟩ := List.append_eq_nil.mp h1
      exact hN_ne h3
    · intro p hp
      rcases List.mem_append.mp hp with h0 | h0
      · rcases List.mem_append.mp h0 with h3 | h3
        · exact hAnonl p h3
        · exact hNnonl p h3
      · exact hBnonl p h0
  have hscan2 : scanSE name ((A ++ news) ++ B) 0 none =
      (some s, eOpt.map (fun b => ia + k + (b - ia))) := by
    rw [List.append_assoc]
    rw [scanSE_append_none name A (news ++ B) 0 none (some s) hSA]
    rw [hlenA, Nat.zero_add]
    rw [scanSE_append_none name news B ia (some s) (some s)
      (scanSE_skip name news ia (some s) hskipN)]
    rw [hk]
    exact scanSE_reloc name B ia (ia + k) s s eOpt hscanB (by omega) (by omega)
  have hscanT : scanSE name (splitOnNl (joinNl (A ++ news ++ B))) 0 none =
      (some s, eOpt.map (fun b => ia + k + (b - ia))) := by
    rw [hsplit']
    exact hscan2
  have hgetD : (eOpt.map (fun b => ia + k + (b - ia))).getD
      (splitOnNl (joinNl (A ++ news ++ B))).length = e + k := by
    rw [hsplit']
    cases eOpt with
    | none =>
      show ((A ++ news) ++ B).length = e + k
      have hL : ((A ++ news) ++ B).length = ia + k + B.length := by
        simp only [List.length_append, hlenA, hk]
      have heB : e = ia + B.length := by
        rw [he]
        show (A ++ B).length = ia + B.length
        simp only [List.length_append, hlenA]
      rw [hL, heB]
      omega
    | some b =>
      have hb : ia ≤ b := (scanSE_bound name B ia (some s) (some s) b hscanB).1
      have heb : e = b := by
        rw [he]
        rfl
      show ia + k + (b - ia) = e + k
      omega
  have hfind2 : find_section_end (joinNl (A ++ news ++ B)) name =
      some (s, e + k,
        pyStrip (joinNl (((splitOnNl (joinNl (A ++ news ++ B))).drop (s + 1)).take
          ((e + k) - (s + 1))))) := by
    have h0 := find_section_end_eval _ name s _ hscanT
    rw [hgetD] at h0
    exact h0
  have hW : (((splitOnNl (joinNl (A ++ news ++ B))).drop (s + 1)).take ((e + k) - (s + 1)))
      = (A.drop (s + 1) ++ news) ++ B.take (e - ia) := by
    rw [hsplit', List.append_assoc]
    rw [List.drop_append_of_le_length (by rw [hlenA]; omega)]
    rw [show e + k - (s + 1) = (A.drop (s + 1)).length + (k + (e - ia)) from by
      rw [List.length_drop, hlenA]; omega]
    rw [List.take_append]
    rw [show k + (e - ia) = news.length + (e - ia) from by rw [hk]]
    rw [List.take_append]
    rw [← List.append_assoc]
  have hext2 : get_existing_deps (joinNl (A ++ news ++ B)) name =
      ((A.drop (s + 1) ++ news) ++ B.take (e - ia)).filterMap keyOf := by
    unfold get_existing_deps
    rw [hfind2, hW]
    refine keysOfContent_strip_join _ ?_
    intro p hp
    rcases List.mem_append.mp hp with h0 | h0
    · rcases List.mem_append.mp h0 with h3 | h3
      · exact hAnonl p (List.drop_subset _ _ h3)
      · exact hNnonl p h3
    · exact hBnonl p (List.take_subset _ _ h0)
  have hnew2 : deps.filter
      (fun d => !(get_existing_deps (joinNl (A ++ news ++ B)) name).contains d) = [] := by
    rw [List.filter_eq_nil_iff]
    intro d hd hq
    have hc : (((A.drop (s + 1) ++ news) ++ B.take (e - ia)).filterMap keyOf).contains d
        = true := (mem_containsLL _ _).mpr (hmem d hd)
    rw [hext2, hc] at hq
    simp at hq
  simp only [add_deps_to_section]
  rw [hdeps_ne]
  simp only [Bool.false_eq_true, if_false]
  rw [hnew2]
  rfl

/-- C4 (counterexample): patching is not idempotent for arbitrary entry names:
an inserted entry containing an equals sign is re-parsed with a different key
(the text before the first equals sign), so a second run duplicates it. -/
theorem add_deps_not_idempotent :
    add_deps_to_section
        (add_deps_to_section "[depends]".data "depends".data ["a=b".data])
        "depends".data ["a=b".data] ≠
      add_deps_to_section "[depends]".data "depends".data ["a=b".data] := by
  decide

/-- C4 (amended): patching is idempotent for entry names drawn from the
package-name alphabet (non-empty words over lowercase letters, digits,
- . _ +): re-running add_deps_to_section with the same section and entries
returns its own output unchanged, because each inserted line parses back to
exactly its entry as an existing key. -/
theorem add_deps_idempotent (content name : List Char) (deps : List (List Char))
    (hdeps : ∀ d ∈ deps, goodTok d = true) :
    add_deps_to_section (add_deps_to_section content name deps) name deps =
      add_deps_to_section content name deps := by
  by_cases h1 : deps.isEmpty = true
  · have hT : add_deps_to_section content name deps = content := by
      simp only [add_deps_to_section]
      rw [if_pos h1]
    rw [hT]
    exact hT
  · rw [Bool.not_eq_true] at h1
    by_cases h2 : (deps.filter
        (fun d => !(get_existing_deps content name).contains d)).isEmpty = true
    · have hT : add_deps_to_section content name deps = content := by
        simp only [add_deps_to_section]
        rw [h1]
        simp only [Bool.false_eq_true, if_false]
        rw [if_pos h2]
      rw [hT]
      exact hT
    · rw [Bool.not_eq_true] at h2
      cases hf : find_section_end content name with
      | none =>
        have hT : add_deps_to_section content name deps = content := by
          simp only [add_deps_to_section]
          rw [h1]
          simp only [Bool.false_eq_true, if_false]
          rw [h2]
          simp only [Bool.false_eq_true, if_false, hf]
        rw [hT]
        exact hT
      | some tpl =>
        obtain ⟨s, e, sc⟩ := tpl
        have hse := scanSE_lt_e content name s e sc hf
        obtain ⟨eOpt, hscan0, he⟩ := find_section_end_inv content name s e sc hf
        have hsc := find_section_end_sc content name s e sc hf
        have hwinlen : (((splitOnNl content).drop (s + 1)).take (e - (s + 1))).length
            = e - (s + 1) := by
          rw [List.length_take, List.length_drop]
          omega
        have hia_ge : s + 1 ≤ insertPos (splitOnNl content) s e := by
          unfold insertPos
          exact lastEntryPos_ge _ _ _ _ (Nat.le_refl _) (Nat.le_refl _)
        have hia_le : insertPos (splitOnNl content) s e ≤ e := by
          unfold insertPos
          have := lastEntryPos_le (((splitOnNl content).drop (s + 1)).take (e - (s + 1)))
            (s + 1) (s + 1) (Nat.le_refl _)
          rw [hwinlen] at this
          omega
        have hlenA : ((splitOnNl content).take (insertPos (splitOnNl content) s e)).length
            = insertPos (splitOnNl content) s e := by
          rw [List.length_take]
          omega
        have hT' : add_deps_to_section content name deps =
            joinNl ((splitOnNl content).take (insertPos (splitOnNl content) s e) ++
              (sortTokens (deps.filter
                (fun d => !(get_existing_deps content name).contains d))).map mkLine ++
              (splitOnNl content).drop (insertPos (splitOnNl content) s e)) := by
          simp only [add_deps_to_section]
          rw [h1]
          simp only [Bool.false_eq_true, if_false]
          rw [h2]
          simp only [Bool.false_eq_true, if_false, hf]
          rw [insertAllAt_eq _ _ _ (by omega)]
        rw [hT']
        have hnd_good : ∀ d ∈ deps.filter
            (fun d => !(get_existing_deps content name).contains d), goodTok d = true :=
          fun d hd => hdeps d (List.mem_filter.mp hd).1
        have hN_ne : (sortTokens (deps.filter
            (fun d => !(get_existing_deps content name).contains d))).map mkLine ≠ [] := by
          intro h0
          rw [List.map_eq_nil_iff] at h0
          exact sortTokens_ne_nil _ (List.isEmpty_eq_false.mp h2) h0
        have hAnonl : ∀ p ∈ (splitOnNl content).take (insertPos (splitOnNl content) s e),
            '\n' ∉ p :=
          fun p hp => no_nl_mem_splitOnNl content p (List.take_subset _ _ hp)
        have hBnonl : ∀ p ∈ (splitOnNl content).drop (insertPos (splitOnNl content) s e),
            '\n' ∉ p :=
          fun p hp => no_nl_mem_splitOnNl content p (List.drop_subset _ _ hp)
        have hWdec : ((splitOnNl content).drop (s + 1)).take (e - (s + 1)) =
            ((splitOnNl content).take (insertPos (splitOnNl content) s e)).drop (s + 1) ++
            ((splitOnNl content).drop (insertPos (splitOnNl content) s e)).take
              (e - insertPos (splitOnNl content) s e) := by
          conv_lhs =>
            rw [← List.take_append_drop (insertPos (splitOnNl content) s e) (splitOnNl content)]
          rw [List.drop_append_of_le_length (by rw [hlenA]; omega)]
          rw [show e - (s + 1) =
              (((splitOnNl content).take (insertPos (splitOnNl content) s e)).drop
                (s + 1)).length + (e - insertPos (splitOnNl content) s e) from by
            rw [List.length_drop, hlenA]; omega]
          rw [List.take_append]
        have hExt : get_existing_deps content name =
            (((splitOnNl content).take (insertPos (splitOnNl content) s e)).drop (s + 1) ++
             ((splitOnNl content).drop (insertPos (splitOnNl content) s e)).take
               (e - insertPos (splitOnNl content) s e)).filterMap keyOf := by
          unfold get_existing_deps
          rw [hf, hsc, hWdec]
          refine keysOfContent_strip_join _ ?_
          intro p hp
          rcases List.mem_append.mp hp with h0 | h0
          · exact hAnonl p (List.drop_subset _ _ h0)
          · exact hBnonl p (List.take_subset _ _ h0)
        have hmem : ∀ d ∈ deps,
            d ∈ (((splitOnNl content).take (insertPos (splitOnNl content) s e)).drop (s + 1) ++
              (sortTokens (deps.filter
                (fun d => !(get_existing_deps content name).contains d))).map mkLine ++
              ((splitOnNl content).drop (insertPos (splitOnNl content) s e)).take
                (e - insertPos (splitOnNl content) s e)).filterMap keyOf := by
          intro d hd
          by_cases hdE : d ∈ get_existing_deps content name
          · rw [hExt] at hdE
            simp only [List.filterMap_append, List.mem_append] at hdE ⊢
            tauto
          · have hcontains : (get_existing_deps content name).contains d = false := by
              cases hcc : (get_existing_deps content name).contains d
              · rfl
              · exact absurd ((mem_containsLL _ _).mp hcc) hdE
            have hdn : d ∈ deps.filter
                (fun x => !(get_existing_deps content name).contains x) :=
              List.mem_filter.mpr ⟨hd, by rw [hcontains]; rfl⟩
            have hmk : mkLine d ∈ (sortTokens (deps.filter
                (fun x => !(get_existing_deps content name).contains x))).map mkLine :=
              List.mem_map.mpr ⟨d, (mem_sortTokens d _).mpr hdn, rfl⟩
            simp only [List.filterMap_append, List.mem_append]
            exact Or.inl (Or.inr (List.mem_filterMap.mpr
              ⟨mkLine d, hmk, keyOf_mkLine d (hdeps d hd)⟩))
        cases hSA0 : scanSE name
            ((splitOnNl content).take (insertPos (splitOnNl content) s e)) 0 none with
        | mk stA rA =>
          cases rA with
          | some b =>
            exfalso
            have hall := scanSE_append_some name _
              ((splitOnNl content).drop (insertPos (splitOnNl content) s e)) 0 none stA b hSA0
            rw [List.take_append_drop] at hall
            rw [hscan0] at hall
            injection hall with ha1 ha2
            have hbnd := scanSE_bound name _ 0 none stA b hSA0
            rw [hlenA] at hbnd
            rw [ha2] at he
            have heb : e = b := by
              rw [he]
              rfl
            have := hbnd.2
            omega
          | none =>
            have hstep := scanSE_append_none name _
              ((splitOnNl content).drop (insertPos (splitOnNl content) s e)) 0 none stA hSA0
            rw [List.take_append_drop] at hstep
            rw [hscan0] at hstep
            rw [hlenA, Nat.zero_add] at hstep
            have hstB := hstep.symm
            have hstA : stA = some s := by
              rcases scanSE_st_mono name _ _ _ _ _ hstB with h3 | ⟨j, hj1, hj2⟩
              · exact h3.symm
              · exfalso
                injection hj2 with he2
                omega
            rw [hstA] at hstB hSA0
            have he2 : e = eOpt.getD
                (((splitOnNl content).take (insertPos (splitOnNl content) s e) ++
                  (splitOnNl content).drop (insertPos (splitOnNl content) s e)).length) := by
              rw [List.take_append_drop]
              exact he
            exact add_deps_fixed name deps
              ((splitOnNl content).take (insertPos (splitOnNl content) s e))
              ((splitOnNl content).drop (insertPos (splitOnNl content) s e))
              ((sortTokens (deps.filter
                (fun d => !(get_existing_deps content name).contains d))).map mkLine)
              s (insertPos (splitOnNl content) s e)
              ((sortTokens (deps.filter
                (fun d => !(get_existing_deps content name).contains d))).map mkLine).length
              e eOpt
              hAnonl hBnonl (news_no_nl _ hnd_good) hN_ne (news_mem_skip name _ hnd_good)
              hlenA rfl hSA0 hstB hia_ge hia_le he2 h1 hmem

/-- Witness for the amended C4 theorem at a concrete patch. -/
theorem add_deps_idempotent_witness :
    add_deps_to_section
        (add_deps_to_section "[depends]".data "depends".data ["zlib".data])
        "depends".data ["zlib".data] =
      add_deps_to_section "[depends]".data "depends".data ["zlib".data] :=
  add_deps_idempotent "[depends]".data "depends".data ["zlib".data] (by decide)

theorem add_deps_lines (content name : List Char) (deps : List (List Char))
    (hg : ∀ d ∈ deps, goodTok d = true) :
    ∀ l ∈ splitOnNl (add_deps_to_section content name deps),
      l ∈ splitOnNl content ∨ ∃ d, d ∈ deps ∧ l = mkLine d := by
  rcases add_deps_splice content name deps with h | ⟨s, e, sc, ia, hf, h1, h2, h3, heq, _⟩
  · rw [h]
    exact fun l hl => Or.inl hl
  · rw [heq]
    have hAne : (splitOnNl content).take ia ≠ [] := by
      have hlen : ((splitOnNl content).take ia).length = ia := by
        rw [List.length_take]
        omega
      intro h0
      rw [h0] at hlen
      simp at hlen
      omega
    rw [splitOnNl_joinNl _
      (by
        intro h0
        exact hAne (List.append_eq_nil.mp (List.append_eq_nil.mp h0).1).1)
      (by
        intro p hp
        rcases List.mem_append.mp hp with hp1 | hpB
        · rcases List.mem_append.mp hp1 with hpA | hpN
          · exact no_nl_mem_splitOnNl content p (List.take_subset _ _ hpA)
          · obtain ⟨dd, hdm, hdeq⟩ := List.mem_map.mp hpN
            have hdd : dd ∈ deps := (List.mem_filter.mp ((mem_sortTokens dd _).mp hdm)).1
            rw [← hdeq]
            exact mkLine_no_nl dd (hg dd hdd)
        · exact no_nl_mem_splitOnNl content p (List.drop_subset _ _ hpB))]
    intro l hl
    rcases List.mem_append.mp hl with hl1 | hlB
    · rcases List.mem_append.mp hl1 with hlA | hlN
      · exact Or.inl (List.take_subset _ _ hlA)
      · obtain ⟨dd, hdm, hdeq⟩ := List.mem_map.mp hlN
        exact Or.inr ⟨dd, (List.mem_filter.mp ((mem_sortTokens dd _).mp hdm)).1, hdeq.symm⟩
    · exact Or.inl (List.drop_subset _ _ hlB)

theorem fixContent_lines (content : List Char) (pkg : PackageIssues)
    (hg1 : ∀ x ∈ (filteredDeps content pkg).1, goodTok x = true)
    (hg2 : ∀ x ∈ (filteredDeps content pkg).2.1, goodTok x = true)
    (hg3 : ∀ x ∈ (filteredDeps content pkg).2.2, goodTok x = true) :
    ∀ l ∈ splitOnNl (fixContent content pkg),
      l ∈ splitOnNl content ∨
      ∃ d2, (d2 ∈ (filteredDeps content pkg).1 ∨ d2 ∈ (filteredDeps content pkg).2.1 ∨
        d2 ∈ (filteredDeps content pkg).2.2) ∧ l = mkLine d2 := by
  have key : ∀ (c nm : List Char) (L : List (List Char)),
      (∀ x ∈ L, goodTok x = true) →
      ∀ l ∈ splitOnNl (if L.isEmpty then c else add_deps_to_section c nm L),
        l ∈ splitOnNl c ∨ ∃ d2, d2 ∈ L ∧ l = mkLine d2 := by
    intro c nm L hgL l hl
    by_cases hE : L.isEmpty
    · rw [if_pos hE] at hl
      exact Or.inl hl
    · rw [if_neg hE] at hl
      exact add_deps_lines c nm L hgL l hl
  intro l hl
  simp only [fixContent] at hl
  rcases key _ _ _ hg3 l hl with h | h
  · rcases key _ _ _ hg2 l h with h2 | h2
    · rcases key _ _ _ hg1 l h2 with h3 | h3
      · exact Or.inl h3
      · obtain ⟨d2, hm, he⟩ := h3
        exact Or.inr ⟨d2, Or.inl hm, he⟩
    · obtain ⟨d2, hm, he⟩ := h2
      exact Or.inr ⟨d2, Or.inr (Or.inl hm), he⟩
  · obtain ⟨d2, hm, he⟩ := h
    exact Or.inr ⟨d2, Or.inr (Or.inr hm), he⟩

/-- C10: before patching, fix_rook_file filters each missing list against the
union of the existing keys of the three dependency sections: a dependency that
equals the package name, that already appears as a key in any section, or whose
lib_to_pkg alias maps to a package present in any section, is dropped from all
three filtered lists, and every line the fixer adds is the formatted line of a
surviving filtered entry, so no line for such a dependency is ever inserted. -/
theorem fixer_filters_existing (content : List Char) (pkg : PackageIssues)
    (d : List Char)
    (hg1 : ∀ x ∈ pkg.missing_depends, goodTok x = true)
    (hg2 : ∀ x ∈ pkg.missing_build_depends, goodTok x = true)
    (hg3 : ∀ x ∈ pkg.missing_optional, goodTok x = true)
    (hd : d = pkg.name ∨ d ∈ allExisting content ∨
      ∃ p, pyDictLookup lib_to_pkg d = some p ∧ p ∈ allExisting content) :
    (d ∉ (filteredDeps content pkg).1 ∧ d ∉ (filteredDeps content pkg).2.1 ∧
     d ∉ (filteredDeps content pkg).2.2) ∧
    ∀ l ∈ splitOnNl (fixContent content pkg),
      l ∈ splitOnNl content ∨
      ∃ d2, (d2 ∈ (filteredDeps content pkg).1 ∨ d2 ∈ (filteredDeps content pkg).2.1 ∨
        d2 ∈ (filteredDeps content pkg).2.2) ∧ d2 ≠ d ∧ l = mkLine d2 := by
  have hfd1 : (filteredDeps content pkg).1 =
      filter_deps (allExisting content) pkg.name pkg.missing_depends := rfl
  have hfd2 : (filteredDeps content pkg).2.1 =
      filter_deps (allExisting content) pkg.name pkg.missing_build_depends := rfl
  have hfd3 : (filteredDeps content pkg).2.2 =
      filter_deps (allExisting content) pkg.name pkg.missing_optional := rfl
  have hnot : ∀ L, d ∉ filter_deps (allExisting content) pkg.name L := by
    intro L hmem
    have hp := (List.mem_filter.mp hmem).2
    simp only [Bool.and_eq_true, Bool.not_eq_true'] at hp
    obtain ⟨⟨hp1, hp2⟩, hp3⟩ := hp
    rcases hd with h | h | ⟨p, hlk, hpm⟩
    · exact absurd h (beq_eq_false_iff_ne.mp hp1)
    · have hc := (mem_containsLL _ _).mpr h
      rw [hp3] at hc
      exact Bool.noConfusion hc
    · simp only [aliasHit, hlk] at hp2
      have hc := (mem_containsLL _ _).mpr hpm
      rw [hp2] at hc
      exact Bool.noConfusion hc
  have hnm1 : d ∉ (filteredDeps content pkg).1 := by
    rw [hfd1]
    exact hnot _
  have hnm2 : d ∉ (filteredDeps content pkg).2.1 := by
    rw [hfd2]
    exact hnot _
  have hnm3 : d ∉ (filteredDeps content pkg).2.2 := by
    rw [hfd3]
    exact hnot _
  refine ⟨⟨hnm1, hnm2, hnm3⟩, ?_⟩
  intro l hl
  have hG1 : ∀ x ∈ (filteredDeps content pkg).1, goodTok x = true := by
    rw [hfd1]
    exact fun x hx => hg1 x (List.mem_filter.mp hx).1
  have hG2 : ∀ x ∈ (filteredDeps content pkg).2.1, goodTok x = true := by
    rw [hfd2]
    exact fun x hx => hg2 x (List.mem_filter.mp hx).1
  have hG3 : ∀ x ∈ (filteredDeps content pkg).2.2, goodTok x = true := by
    rw [hfd3]
    exact fun x hx => hg3 x (List.mem_filter.mp hx).1
  rcases fixContent_lines content pkg hG1 hG2 hG3 l hl with h | ⟨d2, hm, he⟩
  · exact Or.inl h
  · refine Or.inr ⟨d2, hm, ?_, he⟩
    intro heq
    rw [heq] at hm
    rcases hm with hm | hm | hm
    · exact hnm1 hm
    · exact hnm2 hm
    · exact hnm3 hm

/-- Witness for the C10 theorem at a concrete file and package. -/
theorem fixer_filters_existing_witness :
    ("zlib".data ∉ (filteredDeps wContent wPkg).1 ∧
     "zlib".data ∉ (filteredDeps wContent wPkg).2.1 ∧
     "zlib".data ∉ (filteredDeps wContent wPkg).2.2) ∧
    ∀ l ∈ splitOnNl (fixContent wContent wPkg),
      l ∈ splitOnNl wContent ∨
      ∃ d2, (d2 ∈ (filteredDeps wContent wPkg).1 ∨
        d2 ∈ (filteredDeps wContent wPkg).2.1 ∨
        d2 ∈ (filteredDeps wContent wPkg).2.2) ∧ d2 ≠ "zlib".data ∧ l = mkLine d2 :=
  fixer_filters_existing wContent wPkg "zlib".data (by decide) (by decide) (by decide)
    (Or.inr (Or.inl (by decide)))

end Rookpkg

